import Mathlib

/-! Circuit breaker: a shallow embedding of the Go package `breaker`.

The Go package keeps one `Breaker` value behind a mutex.  `beforeCall` and
`afterCall` each run entirely under that lock, so each of them is one atomic
step on the gate; here they are pure functions from a gate to a gate.

Conventions of the embedding

* `time.Time` and `time.Duration` are integers (nanoseconds); the zero instant
  of `Time.IsZero` is `0`.  Every reading of `time.Now()` is an explicit
  argument: `now` is the reading taken by `beforeCall` / `afterCall`, `clk` the
  later reading taken inside `newWindow` when that branch is reached.
* `uint64` counters are naturals, and `++` is addition modulo `2 ^ 64`.
* `breaker.go` reads the request total as `metric.TotalRequest`; `metric.go`
  declares that counter as `CountAll` (likewise `TotalSuccess`/`CountSuccess`,
  `TotalFail`/`CountFail`).  The embedding uses the declared names.
* Logging is omitted.
-/

namespace CircuitBreaker

/-- Instants, `time.Time`. -/
abbrev Time := Int

/-- Spans of time, `time.Duration` (signed). -/
abbrev Duration := Int

/-- Modulus of `uint64` arithmetic. -/
abbrev U64 : Nat := 18446744073709551616

/-! ## state.go -/

/-- The three values of `State` the package ever assigns. -/
inductive State where
  | StateClosed
  | StateOpen
  | StateHalfOpen
  deriving DecidableEq, Repr

/-- Errors seen by a caller of `Do`: the two rejection errors of `state.go`, and
whatever else the wrapped operation may return. -/
inductive Error where
  | ErrStateOpen
  | ErrStateHalfOpen
  | other (code : Nat)
  deriving DecidableEq, Repr

/-! ## metric.go -/

/-- The window counters, `Metric`. -/
structure Metric where
  WindowBatch : Nat
  WindowStartTime : Time
  CountAll : Nat
  CountSuccess : Nat
  CountFail : Nat
  ContinuousSuccess : Nat
  ContinuousFail : Nat
  deriving DecidableEq, Repr

/-- Method `Metric.NewWindowBatch`: `m.WindowBatch++`. -/
def Metric.NewWindowBatch (m : Metric) : Metric :=
  { m with WindowBatch := (m.WindowBatch + 1) % U64 }

/-- Method `Metric.onSuccess`, statement by statement: `CountAll++`, `CountSuccess++`,
`ContinuousSuccess++`, `CountFail = 0`. -/
def Metric.onSuccess (m : Metric) : Metric :=
  { m with
    CountAll := (m.CountAll + 1) % U64
    CountSuccess := (m.CountSuccess + 1) % U64
    ContinuousSuccess := (m.ContinuousSuccess + 1) % U64
    CountFail := 0 }

/-- Method `Metric.onFail`: `CountAll++`, `CountFail++`, `ContinuousFail++`,
`ContinuousSuccess = 0`. -/
def Metric.onFail (m : Metric) : Metric :=
  { m with
    CountAll := (m.CountAll + 1) % U64
    CountFail := (m.CountFail + 1) % U64
    ContinuousFail := (m.ContinuousFail + 1) % U64
    ContinuousSuccess := 0 }

/-- Method `Metric.OnReset`: the five counters go to zero. -/
def Metric.OnReset (m : Metric) : Metric :=
  { m with
    CountAll := 0
    CountSuccess := 0
    CountFail := 0
    ContinuousSuccess := 0
    ContinuousFail := 0 }

/-- All five counters are zero (the content `OnReset` leaves). -/
def Metric.countersZero (m : Metric) : Prop :=
  m.CountAll = 0 ∧ m.CountSuccess = 0 ∧ m.CountFail = 0 ∧
    m.ContinuousSuccess = 0 ∧ m.ContinuousFail = 0

instance (m : Metric) : Decidable m.countersZero := by
  unfold Metric.countersZero; infer_instance

/-! ## Policies -/

/-- A policy, `StrategyFn`: a predicate on the metrics. -/
abbrev StrategyFn := Metric → Bool

/-- Modelled from the spec: `FailStrategyFn` is called by `breaker.go` and
`option.go` but its body is not among the source files.  "Absolute failure
count: trips when `fails >= threshold`." -/
def FailStrategyFn (threshold : Nat) : StrategyFn :=
  fun m => decide (threshold ≤ m.CountFail)

/-- Modelled from the spec: `ContinuousFailStrategyFn`, body not among the source
files.  "Consecutive failure count: trips when `consecutiveFails >= threshold`." -/
def ContinuousFailStrategyFn (threshold : Nat) : StrategyFn :=
  fun m => decide (threshold ≤ m.ContinuousFail)

/-- Modelled from the spec: `FailRateStrategyFn`, body not among the source files.
"Failure rate: trips when `total >= minCall AND fails/total >= rate`."  The rate
and the quotient are exact rationals. -/
def FailRateStrategyFn (rate : ℚ) (minCall : Nat) : StrategyFn :=
  fun m => decide (minCall ≤ m.CountAll) &&
    decide (rate ≤ (m.CountFail : ℚ) / (m.CountAll : ℚ))

/-! ## breaker.go -/

/-- The gate, `Breaker` (the mutex is not a field here: every function below is
one critical section). -/
structure Breaker where
  name : String
  state : State
  halfOpenMaxCall : Nat
  openTime : Time
  windowInterval : Duration
  coolDownTime : Duration
  metric : Metric
  strategyFn : StrategyFn

/-- One second, `time.Second`. -/
def Second : Duration := 1000000000

def DefaultWindowInterval : Duration := Second
def DefaultCoolDownTime : Duration := Second
def DefaultHalfOpenMaxCall : Nat := 5
def DefaultFailThreshold : Nat := 10
def DefaultContinuousFailThreshold : Nat := 10
def DefaultFailRate : ℚ := 3 / 5
def DefaultMinCall : Nat := 10

/-- Method `Breaker.newWindow(t)`; `clk` is the reading of `time.Now()` taken inside. -/
def Breaker.newWindow (b : Breaker) (t clk : Time) : Breaker :=
  let m := b.metric.NewWindowBatch.OnReset
  match b.state with
  | State.StateClosed =>
    if b.windowInterval = 0 then
      { b with metric := { m with WindowStartTime := clk } }
    else
      { b with metric := { m with WindowStartTime := t + b.windowInterval } }
  | State.StateOpen =>
    { b with metric := { m with WindowStartTime := t + b.coolDownTime } }
  | State.StateHalfOpen =>
    { b with metric := { m with WindowStartTime := clk } }

/-- Method `Breaker.changeState(state, t)`. -/
def Breaker.changeState (b : Breaker) (state : State) (t clk : Time) : Breaker :=
  if b.state = state then b
  else
    let b1 := { b with state := state }
    let b2 := b1.newWindow t clk
    if state = State.StateOpen then { b2 with openTime := t } else b2

/-- Method `Breaker.onSuccess(t)`. -/
def Breaker.onSuccess (b : Breaker) (t clk : Time) : Breaker :=
  let b1 := { b with metric := b.metric.onSuccess }
  if b1.state = State.StateHalfOpen ∧ b1.halfOpenMaxCall ≤ b1.metric.ContinuousSuccess then
    b1.changeState State.StateClosed t clk
  else b1

/-- Method `Breaker.onFail(t)`. -/
def Breaker.onFail (b : Breaker) (t clk : Time) : Breaker :=
  let b1 := { b with metric := b.metric.onFail }
  match b1.state with
  | State.StateClosed =>
    if b1.strategyFn b1.metric then b1.changeState State.StateOpen t clk else b1
  | State.StateHalfOpen => b1.changeState State.StateOpen t clk
  | State.StateOpen => b1

/-- Method `Breaker.afterCall(result)`; `now` is its reading of `time.Now()`. -/
def Breaker.afterCall (b : Breaker) (result : Bool) (now clk : Time) : Breaker :=
  if result then b.onSuccess now clk else b.onFail now clk

/-- Method `Breaker.beforeCall()`: the returned error (`none` for `nil`) and the gate it
leaves; `now` is its reading of `time.Now()`. -/
def Breaker.beforeCall (b : Breaker) (now clk : Time) : Option Error × Breaker :=
  match b.state with
  | State.StateOpen =>
    if b.openTime + b.coolDownTime < now then
      (none, b.changeState State.StateHalfOpen now clk)
    else (some Error.ErrStateOpen, b)
  | State.StateHalfOpen =>
    if b.halfOpenMaxCall ≤ b.metric.CountAll then (some Error.ErrStateHalfOpen, b)
    else (none, b)
  | State.StateClosed =>
    if b.metric.WindowStartTime ≠ 0 ∧ b.metric.WindowStartTime < now then
      (none, b.newWindow now clk)
    else (none, b)

/-- How a Go function of type `func() error` ends: it returns an error value
(`none` for `nil`), or it panics (with a non-nil panic value). -/
inductive FnResult where
  | returns (err : Option Error)
  | panics
  deriving DecidableEq, Repr

/-- The clock readings one call of `Do` can take, in program order. -/
structure Clock where
  before : Time
  beforeWindow : Time
  after : Time
  afterWindow : Time
  deriving DecidableEq, Repr

/-- Method `Breaker.Do(fn)`.  The operation `fn` acts on a caller-side state `σ`, so
that each invocation of it is visible.  The result is how `Do` itself ends, the
gate it leaves and the caller-side state.  A panic of `fn` reaches the deferred
`recover`, which runs `afterCall(false)`; `Do` then returns the zero value of
its result. -/
def Breaker.Do {σ : Type} (b : Breaker) (fn : σ → FnResult × σ) (s : σ) (c : Clock) :
    FnResult × Breaker × σ :=
  match b.beforeCall c.before c.beforeWindow with
  | (some err, b1) => (FnResult.returns (some err), b1, s)
  | (none, b1) =>
    match fn s with
    | (FnResult.panics, s1) =>
      (FnResult.returns none, b1.afterCall false c.after c.afterWindow, s1)
    | (FnResult.returns err, s1) =>
      (FnResult.returns err, b1.afterCall err.isNone c.after c.afterWindow, s1)

/-! ## option.go -/

/-- The configuration functions, Go type `Option` (renamed: `Option` is taken). -/
abbrev BreakerOption := Breaker → Breaker

/-- The argument of `WithStrategyOption`, `StrategyOption`.  The rate is an exact
rational, as in `FailRateStrategyFn`. -/
structure StrategyOption where
  Strategy : Int
  FailThreshold : Nat
  ContinuousFailThreshold : Nat
  FailRate : ℚ
  MinCall : Nat

/-- The selector constants `StrategyFail`, `StrategyContinuousFail` and
`StrategyFailRate` that `WithStrategyOption` switches on.  Their declarations are
not among the source files, so their values are a parameter of the embedding. -/
structure Selectors where
  StrategyFail : Int
  StrategyContinuousFail : Int
  StrategyFailRate : Int

/-- Function `WithName(s)`. -/
def WithName (s : String) : BreakerOption :=
  fun options => { options with name := s }

/-- Function `WithWindowInterval(d)`. -/
def WithWindowInterval (d : Duration) : BreakerOption :=
  fun options => { options with windowInterval := d }

/-- Function `WithCoolDownTime(d)`. -/
def WithCoolDownTime (d : Duration) : BreakerOption :=
  fun options => { options with coolDownTime := d }

/-- Function `WithHalfOpenMaxCall(d)`. -/
def WithHalfOpenMaxCall (d : Nat) : BreakerOption :=
  fun options => { options with halfOpenMaxCall := d }

/-- The policy `WithStrategyOption(o)` installs, `none` where it panics with
"unknown breaker strategy".  The `switch` takes the first matching case; for an
unsigned field `<= 0` is `= 0`. -/
def strategyOf (sel : Selectors) (o : StrategyOption) : Option StrategyFn :=
  if o.Strategy = sel.StrategyFail then
    let o1 := if o.FailThreshold ≤ 0 then { o with FailThreshold := DefaultFailThreshold } else o
    some (FailStrategyFn o1.FailThreshold)
  else if o.Strategy = sel.StrategyContinuousFail then
    let o1 :=
      if o.ContinuousFailThreshold ≤ 0 then
        { o with ContinuousFailThreshold := DefaultContinuousFailThreshold }
      else o
    some (ContinuousFailStrategyFn o1.ContinuousFailThreshold)
  else if o.Strategy = sel.StrategyFailRate then
    let o1 :=
      if o.FailRate ≤ 0 ∨ o.MinCall ≤ 0 then
        { o with FailRate := DefaultFailRate, MinCall := DefaultMinCall }
      else o
    some (FailRateStrategyFn o1.FailRate o1.MinCall)
  else none

/-- Function `WithStrategyOption(o)`: the option that stores the policy in the gate, or
`none` where the function panics. -/
def WithStrategyOption (sel : Selectors) (o : StrategyOption) : Option BreakerOption :=
  (strategyOf sel o).map fun fn => fun options => { options with strategyFn := fn }

/-! ## Runs: sequences of atomic steps -/

/-- One recorded outcome: the argument of `afterCall` and its clock readings. -/
structure Outcome where
  ok : Bool
  now : Time
  clk : Time
  deriving DecidableEq, Repr

/-- The metrics after one outcome, as `afterCall` updates them before it looks at
the state: `onSuccess` or `onFail`. -/
def Metric.record (m : Metric) (ok : Bool) : Metric :=
  if ok then m.onSuccess else m.onFail

/-- The metrics of one window after a sequence of outcomes. -/
def Metric.recordAll (m : Metric) (oks : List Bool) : Metric :=
  oks.foldl Metric.record m

/-- The gate after a sequence of `afterCall`s. -/
def Breaker.afterCalls (b : Breaker) (os : List Outcome) : Breaker :=
  os.foldl (fun g o => g.afterCall o.ok o.now o.clk) b

/-- The outcomes of a run, without their clock readings. -/
def oksOf (os : List Outcome) : List Bool := os.map Outcome.ok

/-- Predicate `failStreak oks k n`: outcome number `k` (counted from 1) and the `n - 1`
outcomes right before it exist and are all failures. -/
def failStreak (oks : List Bool) (k n : Nat) : Prop :=
  n ≤ k ∧ k ≤ oks.length ∧ ∀ i, i < k → k - n ≤ i → oks[i]? = some false

/-- Number of failures among the first `k` outcomes. -/
def failsUpTo (oks : List Bool) (k : Nat) : Nat :=
  ((oks.take k).filter fun ok => !ok).length

/-- An atomic step on the gate: an admission attempt (`beforeCall`) or the
recording of a finished call (`afterCall`).  Calls overlap when an `attempt`
comes between the `attempt` and the `record` of another call. -/
inductive Step where
  | attempt (now clk : Time)
  | record (ok : Bool) (now clk : Time)
  deriving DecidableEq, Repr

/-- The gate after one atomic step. -/
def Breaker.step (b : Breaker) : Step → Breaker
  | Step.attempt now clk => (b.beforeCall now clk).2
  | Step.record ok now clk => b.afterCall ok now clk

/-- Whether the step is an admission attempt that `beforeCall` admits. -/
def Breaker.accepts (b : Breaker) : Step → Bool
  | Step.attempt now clk => (b.beforeCall now clk).1.isNone
  | Step.record _ _ _ => false

/-- The gate after a sequence of atomic steps. -/
def Breaker.steps (b : Breaker) (tr : List Step) : Breaker :=
  tr.foldl Breaker.step b

/-- Number of admitted admission attempts along a sequence of atomic steps. -/
def Breaker.acceptedCount : Breaker → List Step → Nat
  | _, [] => 0
  | b, st :: tr => (if b.accepts st then 1 else 0) + (b.step st).acceptedCount tr

/-- The gate is HalfOpen after every step of the sequence: no transition out of
HalfOpen happens along it. -/
def Breaker.staysHalfOpen : Breaker → List Step → Bool
  | _, [] => true
  | b, st :: tr =>
    decide ((b.step st).state = State.StateHalfOpen) && (b.step st).staysHalfOpen tr

/-- A call in sequential use: how the operation ends, and the clock readings. -/
structure Call where
  result : FnResult
  clock : Clock
  deriving DecidableEq, Repr

/-- One call of `Do` in sequential use, with an operation that ends as `c.result`. -/
def Breaker.call (b : Breaker) (c : Call) : FnResult × Breaker :=
  let r := b.Do (fun (s : Unit) => (c.result, s)) () c.clock
  (r.1, r.2.1)

/-- The gate after a sequence of calls of `Do`, each finished before the next
one starts. -/
def Breaker.calls (b : Breaker) (cs : List Call) : Breaker :=
  cs.foldl (fun g c => (g.call c).2) b

/-- Calls admitted in sequential use while the gate is HalfOpen: the count runs
over the calls of the list that start with the gate HalfOpen, up to the first
one that starts in another state. -/
def Breaker.probesAccepted : Breaker → List Call → Nat
  | _, [] => 0
  | b, c :: cs =>
    if b.state = State.StateHalfOpen then
      (if (b.beforeCall c.clock.before c.clock.beforeWindow).1.isNone then 1 else 0) +
        (b.call c).2.probesAccepted cs
    else 0

/-- Calls admitted in one HalfOpen episode in sequential use, from an Open gate:
the call whose admission moves the gate to HalfOpen, and the calls admitted
after it until the gate has left HalfOpen. -/
def Breaker.episodeAccepted (b : Breaker) : List Call → Nat
  | [] => 0
  | c :: cs =>
    if (b.beforeCall c.clock.before c.clock.beforeWindow).1.isNone then
      1 + (b.call c).2.probesAccepted cs
    else 0

/-- Whether a call ends in a recorded success. -/
def Call.succeeds (c : Call) : Bool :=
  match c.result with
  | FnResult.panics => false
  | FnResult.returns e => e.isNone

/-- A policy is quiet when it is false on an empty window and no success turns
it from false to true. -/
def StrategyFn.quiet (fn : StrategyFn) : Prop :=
  (∀ m : Metric, m.countersZero → fn m = false) ∧
    (∀ m : Metric, fn m = false → fn m.onSuccess = false)

/-- What one `afterCall` does to a gate: either the state is kept and the
metrics take exactly one more outcome, or the state changes and the counters
are zero in a new window batch. -/
def recordedOnce (b g : Breaker) (ok : Bool) : Prop :=
  (g.state = b.state ∧ g.metric = b.metric.record ok) ∨
    (g.state ≠ b.state ∧ g.metric.countersZero ∧
      g.metric.WindowBatch = (b.metric.WindowBatch + 1) % U64)

/-! ## Concrete gates used in the examples -/

/-- Selector values used in the examples: 0, 1, 2. -/
def exampleSelectors : Selectors := ⟨0, 1, 2⟩

/-- A gate as the zero value of `Breaker` with the defaults of `defaultBreaker`
filled in: Closed, empty window. -/
def exampleGate : Breaker :=
  { name := "breakerName"
    state := State.StateClosed
    halfOpenMaxCall := DefaultHalfOpenMaxCall
    openTime := 0
    windowInterval := DefaultWindowInterval
    coolDownTime := DefaultCoolDownTime
    metric := ⟨0, 0, 0, 0, 0, 0, 0⟩
    strategyFn := FailStrategyFn DefaultFailThreshold }

/-- The absolute-failure policy with threshold 2, as a `StrategyOption`. -/
def absoluteTwo : StrategyOption := ⟨0, 2, 0, 0, 0⟩

/-- The consecutive-failure policy with threshold 2, as a `StrategyOption`. -/
def consecutiveTwo : StrategyOption := ⟨1, 0, 2, 0, 0⟩

/-- A failing outcome recorded at instant 5. -/
def failAt5 : Outcome := ⟨false, 5, 5⟩

/-- A successful outcome recorded at instant 5. -/
def okAt5 : Outcome := ⟨true, 5, 5⟩

/-- The example gate with the policy of `o` installed by `WithStrategyOption`
(unchanged where that panics). -/
def gateWith (o : StrategyOption) : Breaker :=
  match WithStrategyOption exampleSelectors o with
  | some opt => opt exampleGate
  | none => exampleGate

/-- An Open gate with `halfOpenMaxCall = 1`, opened at instant 0 with the default
cooldown of one second. -/
def openGateBudgetOne : Breaker :=
  { exampleGate with state := State.StateOpen, halfOpenMaxCall := 1 }

/-- A HalfOpen gate that has just been entered (counters zero), with
`halfOpenMaxCall = 2`. -/
def halfOpenGateBudgetTwo : Breaker :=
  { exampleGate with state := State.StateHalfOpen, halfOpenMaxCall := 2 }

/-- Clock readings of a call made around instant 5. -/
def clockAt5 : Clock := ⟨5, 5, 6, 6⟩

/-- Clock readings of a call made two seconds after instant 0. -/
def clockAt2s : Clock := ⟨2000000000, 2000000000, 2000000001, 2000000001⟩

/-- A call whose operation returns `nil`, made two seconds after instant 0. -/
def okCall : Call := ⟨FnResult.returns none, clockAt2s⟩

/-- An operation that counts its invocations in the caller-side state and
returns `nil`. -/
def countingOk : Nat → FnResult × Nat := fun n => (FnResult.returns none, n + 1)

/-- An operation that counts its invocations in the caller-side state and
panics. -/
def countingPanic : Nat → FnResult × Nat := fun n => (FnResult.panics, n + 1)

/-- An admission attempt two seconds after instant 0. -/
def attemptAt2s : Step := Step.attempt 2000000000 2000000000

/-! ## Construction -/

/-- The initial value of the package variable `defaultBreaker`: the four fields
of its composite literal, every other field at its zero value. -/
def defaultBreaker : Breaker :=
  { name := ""
    state := State.StateClosed
    halfOpenMaxCall := DefaultHalfOpenMaxCall
    openTime := 0
    windowInterval := DefaultWindowInterval
    coolDownTime := DefaultCoolDownTime
    metric := ⟨0, 0, 0, 0, 0, 0, 0⟩
    strategyFn := FailStrategyFn DefaultFailThreshold }

/-- Function `NewBreaker(opts...)`.  `breaker := &defaultBreaker` is a pointer to the
package variable: the options, the name and `newWindow` all write to that
variable, and the pointer returned is its address.  `global` is the content of
`defaultBreaker` when the call starts; the result is its content when the call
returns, which is the gate the caller holds (and the gate every earlier caller
holds).  `now` is the reading of `time.Now()` passed to `newWindow`. -/
def NewBreaker (global : Breaker) (opts : List BreakerOption) (now clk : Time) : Breaker :=
  let b1 := opts.foldl (fun b opt => opt b) global
  let b2 := if b1.name = "" then { b1 with name := "breakerName" } else b1
  b2.newWindow now clk

/-- The failure-rate policy with rate 0.5 and minCall 4, as a `StrategyOption`. -/
def rateHalfOfFour : StrategyOption := ⟨2, 0, 0, 1 / 2, 4⟩

/-- The gate is Closed, or Open, or HalfOpen with `CountAll = ContinuousSuccess`
below the budget. -/
def Breaker.probing (b : Breaker) : Prop :=
  b.state = State.StateHalfOpen →
    b.metric.CountAll = b.metric.ContinuousSuccess ∧ b.metric.CountAll < b.halfOpenMaxCall

/-- Calls spaced by more than `w`: the admission of the first call of the list
comes more than `w` after the admission of call `c`, and the admission of each
later call more than `w` after the one before it. -/
def spaced (w : Duration) : Call → List Call → Bool
  | _, [] => true
  | c, d :: ds => decide (c.clock.before + w < d.clock.before) && spaced w d ds

/-- A Closed gate, window interval zero, window stamped at instant 100, one
success counted. -/
def zeroIntervalGate : Breaker :=
  { exampleGate with
    windowInterval := 0
    metric := ⟨1, 100, 1, 1, 0, 1, 0⟩ }

/-- Metrics with one failure counted, in a streak of one. -/
def oneFailure : Metric := ⟨1, 100, 1, 0, 1, 0, 1⟩

/-- A call whose operation returns an error, made at instant `t`. -/
def failingCallAt (t : Time) : Call := ⟨FnResult.returns (some (Error.other 0)), ⟨t, t, t, t⟩⟩

/-- A call whose operation returns `nil`, made at instant `t`. -/
def okCallAt (t : Time) : Call := ⟨FnResult.returns none, ⟨t, t, t, t⟩⟩

/-- The gate of `TestBreaker`: `NewBreaker(WithName("my-breaker"),
WithStrategyOption(StrategyOption{Strategy: StrategyFail, FailThreshold: 2}))`,
constructed one second after the zero instant. -/
def testGate : Breaker :=
  NewBreaker defaultBreaker
    (WithName "my-breaker" :: (WithStrategyOption exampleSelectors absoluteTwo).toList)
    Second Second

/-- The 20 calls of `TestBreaker`: call `i` returns `nil` when `i <= 2 || i >= 8`
and an error otherwise; each is made a second and a nanosecond after the one
before. -/
def testCalls : List Call :=
  (List.range 20).map fun i =>
    if i ≤ 2 ∨ 8 ≤ i then okCallAt (2 * Second + i * (Second + 1))
    else failingCallAt (2 * Second + i * (Second + 1))

/-! ## Theorems -/

/-! ## Single steps -/

theorem afterCall_closed_ok (b : Breaker) (now clk : Time)
    (hst : b.state = State.StateClosed) :
    b.afterCall true now clk = { b with metric := b.metric.onSuccess } := by
  simp [Breaker.afterCall, Breaker.onSuccess, hst]

theorem afterCall_closed_fail_quiet (b : Breaker) (now clk : Time)
    (hst : b.state = State.StateClosed) (hp : b.strategyFn b.metric.onFail = false) :
    b.afterCall false now clk = { b with metric := b.metric.onFail } := by
  simp [Breaker.afterCall, Breaker.onFail, hst, hp]

theorem afterCall_closed_fail_trip (b : Breaker) (now clk : Time)
    (hst : b.state = State.StateClosed) (hp : b.strategyFn b.metric.onFail = true) :
    (b.afterCall false now clk).state = State.StateOpen := by
  simp [Breaker.afterCall, Breaker.onFail, hst, hp, Breaker.changeState, Breaker.newWindow]

theorem afterCall_closed_quiet (b : Breaker) (ok : Bool) (now clk : Time)
    (hst : b.state = State.StateClosed)
    (hp : b.strategyFn (b.metric.record ok) = false) :
    b.afterCall ok now clk = { b with metric := b.metric.record ok } := by
  cases ok with
  | true => simpa [Metric.record] using afterCall_closed_ok b now clk hst
  | false =>
    simpa [Metric.record] using
      afterCall_closed_fail_quiet b now clk hst (by simpa [Metric.record] using hp)

/-- While the policy stays false on the metrics of the window, a Closed gate
only accumulates the outcomes. -/
theorem afterCalls_closed_quiet (os : List Outcome) :
    ∀ b : Breaker, b.state = State.StateClosed →
      (∀ j, 1 ≤ j → j ≤ os.length →
        b.strategyFn (b.metric.recordAll ((oksOf os).take j)) = false) →
      b.afterCalls os = { b with metric := b.metric.recordAll (oksOf os) } := by
  induction os with
  | nil => intro b _ _; rfl
  | cons o os ih =>
    intro b hst h
    have h1 : b.strategyFn (b.metric.record o.ok) = false := by
      simpa [oksOf, Metric.recordAll] using h 1 (le_refl 1) (by simp)
    have hstep := afterCall_closed_quiet b o.ok o.now o.clk hst h1
    have htail := ih { b with metric := b.metric.record o.ok } hst (by
      intro j hj1 hj2
      have := h (j + 1) (by omega) (by simpa using hj2)
      simpa [oksOf, Metric.recordAll] using this)
    simp only [Breaker.afterCalls, List.foldl_cons] at htail ⊢
    rw [hstep, htail]
    simp [oksOf, Metric.recordAll]

theorem FailStrategyFn_quiet (n : Nat) (hn : 1 ≤ n) : StrategyFn.quiet (FailStrategyFn n) := by
  constructor
  · intro m hz
    simp only [FailStrategyFn, decide_eq_false_iff_not, hz.2.2.1]
    omega
  · intro m _
    simp only [FailStrategyFn, Metric.onSuccess, decide_eq_false_iff_not]
    omega

theorem ContinuousFailStrategyFn_quiet (n : Nat) (hn : 1 ≤ n) :
    StrategyFn.quiet (ContinuousFailStrategyFn n) := by
  constructor
  · intro m hz
    simp only [ContinuousFailStrategyFn, decide_eq_false_iff_not, hz.2.2.2.2]
    omega
  · intro m h
    simpa [ContinuousFailStrategyFn, Metric.onSuccess] using h

theorem FailRateStrategyFn_quiet (r : ℚ) (minCall : Nat) (hr : 0 < r) (hm : 1 ≤ minCall) :
    StrategyFn.quiet (FailRateStrategyFn r minCall) := by
  constructor
  · intro m hz
    have : ¬ minCall ≤ m.CountAll := by rw [hz.1]; omega
    simp [FailRateStrategyFn, this]
  · intro m _
    simp [FailRateStrategyFn, Metric.onSuccess, hr]

/-- Every policy `WithStrategyOption` can install is quiet. -/
theorem strategyOf_quiet (sel : Selectors) (o : StrategyOption) (fn : StrategyFn)
    (h : strategyOf sel o = some fn) : StrategyFn.quiet fn := by
  unfold strategyOf at h
  split_ifs at h with h1 h2 h3 h4 h5 h6 <;> simp at h <;> subst h
  · exact FailStrategyFn_quiet _ (by decide)
  · exact FailStrategyFn_quiet _ (by omega)
  · exact ContinuousFailStrategyFn_quiet _ (by decide)
  · exact ContinuousFailStrategyFn_quiet _ (by omega)
  · exact FailRateStrategyFn_quiet _ _ (by norm_num [DefaultFailRate]) (by decide)
  · push_neg at h6
    exact FailRateStrategyFn_quiet _ _ h6.1 (by omega)

/-- C1. For a gate whose policy is one that `WithStrategyOption` installs, Closed
at the start of a window (counters zero), and any outcomes recorded by
`afterCall`: after the first `k` outcomes the gate is still Closed when the
policy is false on the metrics after each of the outcomes `1..k`, and it is Open
when outcome `k` is the first one after which the policy is true on the metrics. -/
theorem C1_trips_at_first_policy_hit (sel : Selectors) (o : StrategyOption)
    (opt : BreakerOption) (hopt : WithStrategyOption sel o = some opt)
    (b : Breaker) (hfn : b.strategyFn = (opt b).strategyFn)
    (hst : b.state = State.StateClosed) (hz : b.metric.countersZero)
    (os : List Outcome) (k : Nat) (hk : k ≤ os.length) :
    ((∀ j, 1 ≤ j → j ≤ k →
        b.strategyFn (b.metric.recordAll ((oksOf os).take j)) = false) →
      (b.afterCalls (os.take k)).state = State.StateClosed) ∧
    (1 ≤ k →
      (∀ j, 1 ≤ j → j < k →
        b.strategyFn (b.metric.recordAll ((oksOf os).take j)) = false) →
      b.strategyFn (b.metric.recordAll ((oksOf os).take k)) = true →
      (b.afterCalls (os.take k)).state = State.StateOpen) := by
  have hq : StrategyFn.quiet b.strategyFn := by
    unfold WithStrategyOption at hopt
    cases hs : strategyOf sel o with
    | none => simp [hs] at hopt
    | some fn =>
      simp [hs] at hopt
      subst hopt
      simpa [hfn] using strategyOf_quiet sel o fn hs
  have hpre : ∀ n, n ≤ os.length →
      (∀ j, 1 ≤ j → j ≤ n →
        b.strategyFn (b.metric.recordAll ((oksOf os).take j)) = false) →
      b.afterCalls (os.take n) =
        { b with metric := b.metric.recordAll ((oksOf os).take n) } := by
    intro n hn h
    have := afterCalls_closed_quiet (os.take n) b hst (by
      intro j hj1 hj2
      have hjn : j ≤ n := by simpa [hn] using hj2
      have := h j hj1 hjn
      simpa [oksOf, List.map_take, List.take_take, hjn] using this)
    simpa [oksOf, List.map_take] using this
  constructor
  · intro h
    rw [hpre k hk h]
    exact hst
  · intro hk1 h hk2
    obtain ⟨n, rfl⟩ : ∃ n, k = n + 1 := ⟨k - 1, by omega⟩
    have hlt : n < os.length := by omega
    have hbefore := hpre n (by omega) (fun j hj1 hj2 => h j hj1 (by omega))
    have hlast : b.strategyFn (b.metric.recordAll ((oksOf os).take n)) = false := by
      rcases Nat.eq_zero_or_pos n with h0 | hpos
      · subst h0
        simpa [Metric.recordAll] using hq.1 b.metric hz
      · exact h n hpos (by omega)
    have htk : os.take (n + 1) = os.take n ++ [os.get ⟨n, hlt⟩] := by
      rw [List.take_succ, List.getElem?_eq_getElem hlt]
      rfl
    have hok : (oksOf os).take (n + 1) = (oksOf os).take n ++ [(os.get ⟨n, hlt⟩).ok] := by
      rw [oksOf, ← List.map_take, htk, List.map_append, List.map_take]
      rfl
    rw [hok] at hk2
    simp only [Metric.recordAll, List.foldl_append, List.foldl_cons, List.foldl_nil] at hk2 hlast
    rw [htk]
    simp only [Breaker.afterCalls, List.foldl_append, List.foldl_cons, List.foldl_nil]
    simp only [Breaker.afterCalls] at hbefore
    rw [hbefore]
    cases hoc : (os.get ⟨n, hlt⟩).ok with
    | true =>
      rw [hoc] at hk2
      have := hq.2 _ hlast
      simp [Metric.record, Metric.recordAll] at hk2
      simp [hk2] at this
    | false =>
      rw [hoc] at hk2
      refine afterCall_closed_fail_trip _ _ _ ?_ ?_
      · exact hst
      · simpa [Metric.record, Metric.recordAll] using hk2

theorem C1_witness :
    ((gateWith absoluteTwo).afterCalls [failAt5, okAt5]).state = State.StateClosed ∧
      ((gateWith absoluteTwo).afterCalls [failAt5, failAt5]).state = State.StateOpen := by
  have hopt : WithStrategyOption exampleSelectors absoluteTwo =
      some (fun options => { options with strategyFn := FailStrategyFn 2 }) := rfl
  constructor
  · refine (C1_trips_at_first_policy_hit exampleSelectors absoluteTwo _ hopt
      (gateWith absoluteTwo) rfl rfl (by decide) [failAt5, okAt5] 2 (by decide)).1 ?_
    intro j h1 h2
    interval_cases j <;> decide
  · refine (C1_trips_at_first_policy_hit exampleSelectors absoluteTwo _ hopt
      (gateWith absoluteTwo) rfl rfl (by decide) [failAt5, failAt5] 2 (by decide)).2
      (by decide) ?_ (by decide)
    intro j h1 h2
    interval_cases j
    decide

/-- C2 (failing input). Absolute-failure policy with threshold 2, one Closed window,
outcomes fail, success, fail: the third outcome is the second failure of the
window, yet the gate is still Closed, because `Metric.onSuccess` has set
`CountFail` back to zero (it is 1 after the third outcome). -/
theorem C2_second_failure_after_success_does_not_trip :
    failsUpTo (oksOf [failAt5, okAt5, failAt5]) 3 = 2 ∧
      ((gateWith absoluteTwo).afterCalls [failAt5, okAt5, failAt5]).state = State.StateClosed ∧
      ((gateWith absoluteTwo).afterCalls [failAt5, okAt5, failAt5]).metric.CountFail = 1 ∧
      ((gateWith absoluteTwo).afterCalls [failAt5, okAt5]).metric.CountFail = 0 := by
  decide

/-- C3 (failing input). Consecutive-failure policy with threshold 2, one Closed
window, outcomes fail, success, fail: the outcome before the third one is a
success, yet the gate trips to Open at the third outcome, because
`Metric.onSuccess` leaves `ContinuousFail` as it is (1 after the success, 2
after the third outcome). -/
theorem C3_interrupted_streak_trips :
    ¬ failStreak (oksOf [failAt5, okAt5, failAt5]) 3 2 ∧
      ((gateWith consecutiveTwo).afterCalls [failAt5, okAt5]).state = State.StateClosed ∧
      ((gateWith consecutiveTwo).afterCalls [failAt5, okAt5]).metric.ContinuousFail = 1 ∧
      ((gateWith consecutiveTwo).afterCalls [failAt5, okAt5, failAt5]).state = State.StateOpen := by
  refine ⟨?_, by decide, by decide, by decide⟩
  intro h
  have := h.2.2 1 (by decide) (by decide)
  simp [oksOf, failAt5, okAt5] at this

/-! ## Open gates and the cooldown -/

theorem changeState_open (b : Breaker) (t clk : Time) (h : b.state ≠ State.StateOpen) :
    (b.changeState State.StateOpen t clk).state = State.StateOpen ∧
      (b.changeState State.StateOpen t clk).openTime = t ∧
      (b.changeState State.StateOpen t clk).coolDownTime = b.coolDownTime ∧
      (b.changeState State.StateOpen t clk).halfOpenMaxCall = b.halfOpenMaxCall ∧
      (b.changeState State.StateOpen t clk).metric.countersZero ∧
      (b.changeState State.StateOpen t clk).metric.WindowBatch =
        (b.metric.WindowBatch + 1) % U64 := by
  simp [Breaker.changeState, h, Breaker.newWindow, Metric.OnReset, Metric.NewWindowBatch,
    Metric.countersZero]

/-- An `afterCall` that takes a gate to Open stamps `openTime` with its clock
reading and keeps the cooldown. -/
theorem afterCall_trip (g : Breaker) (ok : Bool) (T clk : Time)
    (hg : g.state ≠ State.StateOpen)
    (htrip : (g.afterCall ok T clk).state = State.StateOpen) :
    (g.afterCall ok T clk).openTime = T ∧
      (g.afterCall ok T clk).coolDownTime = g.coolDownTime := by
  cases ok with
  | true =>
    exfalso
    revert htrip
    cases hs : g.state <;>
      simp_all [Breaker.afterCall, Breaker.onSuccess, Breaker.changeState, Breaker.newWindow]
    split_ifs <;> simp_all
  | false =>
    revert htrip
    cases hs : g.state
    · by_cases hp : g.strategyFn g.metric.onFail = true <;>
        simp_all [Breaker.afterCall, Breaker.onFail, Breaker.changeState, Breaker.newWindow]
    · exact absurd hs hg
    · simp_all [Breaker.afterCall, Breaker.onFail, Breaker.changeState, Breaker.newWindow]

/-- While Open, `afterCall` changes the metrics only. -/
theorem afterCall_open (b : Breaker) (ok : Bool) (now clk : Time)
    (hst : b.state = State.StateOpen) :
    b.afterCall ok now clk = { b with metric := b.metric.record ok } := by
  cases ok <;> simp [Breaker.afterCall, Breaker.onSuccess, Breaker.onFail, hst, Metric.record]

theorem beforeCall_open_early (b : Breaker) (now clk : Time)
    (hst : b.state = State.StateOpen) (h : now ≤ b.openTime + b.coolDownTime) :
    b.beforeCall now clk = (some Error.ErrStateOpen, b) := by
  have : ¬ b.openTime + b.coolDownTime < now := not_lt.mpr h
  simp [Breaker.beforeCall, hst, this]

theorem beforeCall_open_late (b : Breaker) (now clk : Time)
    (hst : b.state = State.StateOpen) (h : b.openTime + b.coolDownTime < now) :
    (b.beforeCall now clk).1 = none ∧
      (b.beforeCall now clk).2.state = State.StateHalfOpen ∧
      (b.beforeCall now clk).2.metric.countersZero := by
  simp [Breaker.beforeCall, hst, h, Breaker.changeState, Breaker.newWindow, Metric.OnReset,
    Metric.NewWindowBatch, Metric.countersZero]

/-- Steps that keep an Open gate Open: attempts no later than the end of the
cooldown, and recordings of calls still in flight. -/
theorem steps_open (tr : List Step) :
    ∀ b : Breaker, b.state = State.StateOpen →
      (∀ now clk, Step.attempt now clk ∈ tr → now ≤ b.openTime + b.coolDownTime) →
      (b.steps tr).state = State.StateOpen ∧ (b.steps tr).openTime = b.openTime ∧
        (b.steps tr).coolDownTime = b.coolDownTime := by
  induction tr with
  | nil => intro b hst _; exact ⟨hst, rfl, rfl⟩
  | cons st tr ih =>
    intro b hst h
    have key : (b.step st).state = State.StateOpen ∧ (b.step st).openTime = b.openTime ∧
        (b.step st).coolDownTime = b.coolDownTime := by
      cases st with
      | attempt now clk =>
        have := beforeCall_open_early b now clk hst (h now clk (by simp))
        simp [Breaker.step, this, hst]
      | record ok now clk =>
        simp [Breaker.step, afterCall_open b ok now clk hst, hst]
    have := ih (b.step st) key.1 (by
      intro now clk hm
      rw [key.2.1, key.2.2]
      exact h now clk (by simp [hm]))
    simp only [Breaker.steps, List.foldl_cons] at this ⊢
    rw [key.2.1, key.2.2] at this
    exact this

/-- C4. A gate has just tripped to Open by an `afterCall` at instant `T`, with
cooldown `d`.  After any further steps in which every admission attempt is made
at an instant `now ≤ T + d` (such attempts, and recordings of calls still in
flight), the gate is Open; an attempt at `now ≤ T + d` is rejected with
`ErrStateOpen` and leaves the gate as it is; an attempt at `now > T + d` is
admitted, moves the gate to HalfOpen and leaves all five counters zero. -/
theorem C4_open_rejects_until_cooldown (g : Breaker) (ok : Bool) (T clk0 : Time)
    (hg : g.state ≠ State.StateOpen)
    (htrip : (g.afterCall ok T clk0).state = State.StateOpen)
    (tr : List Step)
    (htr : ∀ now clk, Step.attempt now clk ∈ tr → now ≤ T + g.coolDownTime) :
    ((g.afterCall ok T clk0).steps tr).state = State.StateOpen ∧
    (∀ now clk, now ≤ T + g.coolDownTime →
      ((g.afterCall ok T clk0).steps tr).beforeCall now clk =
        (some Error.ErrStateOpen, (g.afterCall ok T clk0).steps tr)) ∧
    (∀ now clk, T + g.coolDownTime < now →
      (((g.afterCall ok T clk0).steps tr).beforeCall now clk).1 = none ∧
      (((g.afterCall ok T clk0).steps tr).beforeCall now clk).2.state = State.StateHalfOpen ∧
      (((g.afterCall ok T clk0).steps tr).beforeCall now clk).2.metric.countersZero) := by
  obtain ⟨hT, hd⟩ := afterCall_trip g ok T clk0 hg htrip
  obtain ⟨h1, h2, h3⟩ := steps_open tr (g.afterCall ok T clk0) htrip (by
    intro now clk hm
    rw [hT, hd]
    exact htr now clk hm)
  rw [hT] at h2
  rw [hd] at h3
  refine ⟨h1, ?_, ?_⟩
  · intro now clk h
    exact beforeCall_open_early _ now clk h1 (by rw [h2, h3]; exact h)
  · intro now clk h
    exact beforeCall_open_late _ now clk h1 (by rw [h2, h3]; exact h)

theorem C4_witness :
    ((((gateWith absoluteTwo).afterCalls [failAt5]).afterCall false 10 10).steps
        [Step.attempt 20 20, Step.record true 30 30]).state = State.StateOpen ∧
      (((((gateWith absoluteTwo).afterCalls [failAt5]).afterCall false 10 10).steps
        [Step.attempt 20 20, Step.record true 30 30]).beforeCall 1000000010 1000000010).1 =
          some Error.ErrStateOpen ∧
      (((((gateWith absoluteTwo).afterCalls [failAt5]).afterCall false 10 10).steps
        [Step.attempt 20 20, Step.record true 30 30]).beforeCall 1000000011 1000000011).2.state =
          State.StateHalfOpen := by
  have h := C4_open_rejects_until_cooldown ((gateWith absoluteTwo).afterCalls [failAt5])
    false 10 10 (by decide) (by decide) [Step.attempt 20 20, Step.record true 30 30]
    (by
      intro now clk hm
      simp at hm
      rw [hm.1]
      decide)
  refine ⟨h.1, ?_, (h.2.2 1000000011 1000000011 (by decide)).2.1⟩
  rw [h.2.1 1000000010 1000000010 (by decide)]

/-- C6. For a HalfOpen gate with any metrics, `afterCall(false)` at instant `t`
leaves the gate Open with `openTime = t`, the five counters zero and the window
batch one higher (in `uint64` arithmetic: `WindowBatch++`); an admission attempt
at any `now ≤ t + coolDownTime` is then rejected with `ErrStateOpen`, the gate
staying as it is. -/
theorem C6_half_open_failure_reopens (b : Breaker) (t clk : Time)
    (hst : b.state = State.StateHalfOpen) :
    (b.afterCall false t clk).state = State.StateOpen ∧
    (b.afterCall false t clk).openTime = t ∧
    (b.afterCall false t clk).metric.countersZero ∧
    (b.afterCall false t clk).metric.WindowBatch = (b.metric.WindowBatch + 1) % U64 ∧
    (∀ now clk1, now ≤ t + b.coolDownTime →
      (b.afterCall false t clk).beforeCall now clk1 =
        (some Error.ErrStateOpen, b.afterCall false t clk)) := by
  have hstep : b.afterCall false t clk =
      ({ b with metric := b.metric.onFail } : Breaker).changeState State.StateOpen t clk := by
    simp [Breaker.afterCall, Breaker.onFail, hst]
  have hne : ({ b with metric := b.metric.onFail } : Breaker).state ≠ State.StateOpen := by
    simp [hst]
  obtain ⟨h1, h2, h3, _, h5, h6⟩ := changeState_open _ t clk hne
  rw [← hstep] at h1 h2 h3 h5 h6
  refine ⟨h1, h2, h5, ?_, ?_⟩
  · simpa [Metric.onFail] using h6
  · intro now clk1 h
    exact beforeCall_open_early _ now clk1 h1 (by rw [h2, h3]; exact h)

theorem C6_witness :
    (halfOpenGateBudgetTwo.afterCall false 7 7).state = State.StateOpen ∧
      (halfOpenGateBudgetTwo.afterCall false 7 7).openTime = 7 ∧
      (halfOpenGateBudgetTwo.afterCall false 7 7).metric.WindowBatch = 1 ∧
      ((halfOpenGateBudgetTwo.afterCall false 7 7).beforeCall 1000000007 1000000007).1 =
        some Error.ErrStateOpen := by
  have h := C6_half_open_failure_reopens halfOpenGateBudgetTwo 7 7 rfl
  refine ⟨h.1, h.2.1, h.2.2.2.1, ?_⟩
  rw [h.2.2.2.2 1000000007 1000000007 (by decide)]

/-! ## `Do` -/

/-- A rejection by `beforeCall` is one of the two rejection errors and leaves
the gate as it is. -/
theorem beforeCall_reject (b : Breaker) (now clk : Time) (e : Error)
    (h : (b.beforeCall now clk).1 = some e) :
    (e = Error.ErrStateOpen ∨ e = Error.ErrStateHalfOpen) ∧ (b.beforeCall now clk).2 = b := by
  unfold Breaker.beforeCall at h ⊢
  cases hs : b.state <;> simp only [hs] at h ⊢ <;> split_ifs at h ⊢ <;> simp_all

/-- A rejected call of `Do`: the error is returned, nothing else happens. -/
theorem Do_rejected {σ : Type} (b : Breaker) (fn : σ → FnResult × σ) (s : σ) (c : Clock)
    (e : Error) (h : (b.beforeCall c.before c.beforeWindow).1 = some e) :
    b.Do fn s c = (FnResult.returns (some e), b, s) := by
  have h2 := (beforeCall_reject b c.before c.beforeWindow e h).2
  unfold Breaker.Do
  rcases hb : b.beforeCall c.before c.beforeWindow with ⟨r, b1⟩
  rw [hb] at h h2
  simp only at h h2
  subst h h2
  rfl

/-- C8. When `beforeCall` rejects (it returns an error, which is `ErrStateOpen` or
`ErrStateHalfOpen`), `Do` returns that error, the operation is not invoked (the
caller-side state is untouched) and the gate is exactly the gate before the
call. -/
theorem C8_rejection_leaves_gate_untouched {σ : Type} (b : Breaker)
    (fn : σ → FnResult × σ) (s : σ) (c : Clock) (e : Error)
    (h : (b.beforeCall c.before c.beforeWindow).1 = some e) :
    (e = Error.ErrStateOpen ∨ e = Error.ErrStateHalfOpen) ∧
      b.Do fn s c = (FnResult.returns (some e), b, s) :=
  ⟨(beforeCall_reject b c.before c.beforeWindow e h).1, Do_rejected b fn s c e h⟩

theorem C8_witness :
    openGateBudgetOne.Do countingOk 0 clockAt5 =
      (FnResult.returns (some Error.ErrStateOpen), openGateBudgetOne, 0) :=
  (C8_rejection_leaves_gate_untouched openGateBudgetOne countingOk 0 clockAt5
    Error.ErrStateOpen (by decide)).2

theorem afterCall_recordedOnce (b : Breaker) (ok : Bool) (now clk : Time) :
    recordedOnce b (b.afterCall ok now clk) ok := by
  unfold recordedOnce
  cases ok <;> cases hs : b.state <;>
    simp [Breaker.afterCall, Breaker.onSuccess, Breaker.onFail, hs,
      Breaker.changeState, Breaker.newWindow, Metric.record, Metric.countersZero,
      Metric.OnReset, Metric.NewWindowBatch] <;>
    (try split_ifs) <;> simp_all [Metric.onSuccess, Metric.onFail]

/-- C9. An admitted call (`beforeCall` returns no error and leaves gate `b1`)
whose operation returns `e`: `Do` returns `e`, the operation has run once (the
caller-side state is the one a single invocation leaves), and the gate is `b1`
after one `afterCall` whose argument is `true` exactly when `e` is `nil`: one
outcome is recorded, a success if `e` is `nil`, a failure otherwise. -/
theorem C9_returns_operation_result {σ : Type} (b b1 : Breaker)
    (fn : σ → FnResult × σ) (s s1 : σ) (c : Clock) (e : Option Error)
    (hadm : b.beforeCall c.before c.beforeWindow = (none, b1))
    (hfn : fn s = (FnResult.returns e, s1)) :
    b.Do fn s c = (FnResult.returns e, b1.afterCall e.isNone c.after c.afterWindow, s1) ∧
      recordedOnce b1 (b.Do fn s c).2.1 e.isNone ∧
      (e.isNone = true ↔ e = none) := by
  have hdo : b.Do fn s c =
      (FnResult.returns e, b1.afterCall e.isNone c.after c.afterWindow, s1) := by
    simp [Breaker.Do, hadm, hfn]
  refine ⟨hdo, ?_, Option.isNone_iff_eq_none⟩
  rw [hdo]
  exact afterCall_recordedOnce b1 _ _ _

theorem C9_witness :
    exampleGate.Do countingOk 0 clockAt5 =
      (FnResult.returns none, exampleGate.afterCall true 6 6, 1) :=
  (C9_returns_operation_result exampleGate exampleGate countingOk 0 1 clockAt5 none
    rfl rfl).1

/-- C10. An admitted call whose operation panics: `Do` itself does not panic, it
returns; the operation has run once; and the gate is `b1` after one
`afterCall(false)`: one failing outcome is recorded, with the state change it
implies. -/
theorem C10_panic_recorded_as_failure {σ : Type} (b b1 : Breaker)
    (fn : σ → FnResult × σ) (s s1 : σ) (c : Clock)
    (hadm : b.beforeCall c.before c.beforeWindow = (none, b1))
    (hfn : fn s = (FnResult.panics, s1)) :
    (b.Do fn s c).1 ≠ FnResult.panics ∧
      (b.Do fn s c).2 = (b1.afterCall false c.after c.afterWindow, s1) ∧
      recordedOnce b1 (b.Do fn s c).2.1 false := by
  have hdo : b.Do fn s c =
      (FnResult.returns none, b1.afterCall false c.after c.afterWindow, s1) := by
    simp [Breaker.Do, hadm, hfn]
  rw [hdo]
  exact ⟨by simp, rfl, afterCall_recordedOnce b1 _ _ _⟩

theorem C10_witness :
    (exampleGate.Do countingPanic 0 clockAt5).1 ≠ FnResult.panics ∧
      (exampleGate.Do countingPanic 0 clockAt5).2 = (exampleGate.afterCall false 6 6, 1) :=
  ⟨(C10_panic_recorded_as_failure exampleGate exampleGate countingPanic 0 1 clockAt5
      rfl rfl).1,
    (C10_panic_recorded_as_failure exampleGate exampleGate countingPanic 0 1 clockAt5
      rfl rfl).2.1⟩

/-! ## HalfOpen: probing in sequential use -/

/-- One call in sequential use, spelled out. -/
theorem call_accepted (b b1 : Breaker) (c : Call)
    (hadm : b.beforeCall c.clock.before c.clock.beforeWindow = (none, b1)) :
    b.call c =
      (match c.result with
        | FnResult.panics => FnResult.returns none
        | FnResult.returns e => FnResult.returns e,
       b1.afterCall c.succeeds c.clock.after c.clock.afterWindow) := by
  unfold Breaker.call Breaker.Do Call.succeeds
  rw [hadm]
  cases c.result <;> rfl

theorem call_rejected (b : Breaker) (c : Call) (e : Error)
    (hrej : (b.beforeCall c.clock.before c.clock.beforeWindow).1 = some e) :
    b.call c = (FnResult.returns (some e), b) := by
  have := Do_rejected b (fun (s : Unit) => (c.result, s)) () c.clock e hrej
  simp [Breaker.call, this]


/-- A probe that succeeds below the budget: the gate stays HalfOpen and counts it. -/
theorem call_probe_success_stay (b : Breaker) (c : Call)
    (hst : b.state = State.StateHalfOpen)
    (heq : b.metric.CountAll = b.metric.ContinuousSuccess)
    (hlt : b.metric.CountAll + 1 < b.halfOpenMaxCall) (hk : b.halfOpenMaxCall < U64)
    (hs : c.succeeds = true) :
    (b.call c).2.state = State.StateHalfOpen ∧
      (b.call c).2.halfOpenMaxCall = b.halfOpenMaxCall ∧
      (b.call c).2.metric.CountAll = b.metric.CountAll + 1 ∧
      (b.call c).2.metric.ContinuousSuccess = b.metric.CountAll + 1 := by
  have hadm : b.beforeCall c.clock.before c.clock.beforeWindow = (none, b) := by
    have : ¬ b.halfOpenMaxCall ≤ b.metric.CountAll := by omega
    simp [Breaker.beforeCall, hst, this]
  have hmod : (b.metric.ContinuousSuccess + 1) % U64 = b.metric.ContinuousSuccess + 1 :=
    Nat.mod_eq_of_lt (by omega)
  have hmod2 : (b.metric.CountAll + 1) % U64 = b.metric.CountAll + 1 :=
    Nat.mod_eq_of_lt (by omega)
  have hno : ¬ b.halfOpenMaxCall ≤ b.metric.ContinuousSuccess + 1 := by omega
  rw [call_accepted b b c hadm, hs]
  simp [Breaker.afterCall, Breaker.onSuccess, hst, Metric.onSuccess, hmod, hmod2, hno, heq]

/-- The probe that reaches the budget closes the gate. -/
theorem call_probe_success_close (b : Breaker) (c : Call)
    (hst : b.state = State.StateHalfOpen)
    (heq : b.metric.CountAll = b.metric.ContinuousSuccess)
    (hlt : b.metric.CountAll < b.halfOpenMaxCall)
    (hge : b.halfOpenMaxCall ≤ b.metric.CountAll + 1) (hk : b.halfOpenMaxCall < U64)
    (hs : c.succeeds = true) :
    (b.call c).2.state = State.StateClosed ∧ (b.call c).2.metric.countersZero := by
  have hadm : b.beforeCall c.clock.before c.clock.beforeWindow = (none, b) := by
    have : ¬ b.halfOpenMaxCall ≤ b.metric.CountAll := by omega
    simp [Breaker.beforeCall, hst, this]
  have hmod : (b.metric.ContinuousSuccess + 1) % U64 = b.metric.ContinuousSuccess + 1 :=
    Nat.mod_eq_of_lt (by omega)
  have hyes : b.halfOpenMaxCall ≤ b.metric.ContinuousSuccess + 1 := by omega
  rw [call_accepted b b c hadm, hs]
  simp [Breaker.afterCall, Breaker.onSuccess, hst, Metric.onSuccess, hmod, hyes,
    Breaker.changeState, Breaker.newWindow, Metric.OnReset, Metric.NewWindowBatch,
    Metric.countersZero]
  split_ifs <;> simp

/-- A probe that fails (or panics) reopens the gate. -/
theorem call_probe_failure (b : Breaker) (c : Call)
    (hst : b.state = State.StateHalfOpen)
    (hlt : b.metric.CountAll < b.halfOpenMaxCall)
    (hs : c.succeeds = false) :
    (b.call c).2.state = State.StateOpen := by
  have hadm : b.beforeCall c.clock.before c.clock.beforeWindow = (none, b) := by
    have : ¬ b.halfOpenMaxCall ≤ b.metric.CountAll := by omega
    simp [Breaker.beforeCall, hst, this]
  rw [call_accepted b b c hadm, hs]
  simp [Breaker.afterCall, Breaker.onFail, hst, Breaker.changeState, Breaker.newWindow]

/-- Successful probes below the budget, one after the other. -/
theorem calls_probe_successes (cs : List Call) :
    ∀ b : Breaker, b.state = State.StateHalfOpen →
      b.metric.CountAll = b.metric.ContinuousSuccess →
      b.metric.CountAll + cs.length < b.halfOpenMaxCall → b.halfOpenMaxCall < U64 →
      (∀ c ∈ cs, c.succeeds = true) →
      (b.calls cs).state = State.StateHalfOpen ∧
        (b.calls cs).halfOpenMaxCall = b.halfOpenMaxCall ∧
        (b.calls cs).metric.CountAll = b.metric.CountAll + cs.length ∧
        (b.calls cs).metric.ContinuousSuccess = b.metric.CountAll + cs.length := by
  induction cs with
  | nil => intro b hst heq _ _ _; exact ⟨hst, rfl, rfl, heq.symm⟩
  | cons c cs ih =>
    intro b hst heq hlt hk hs
    simp only [List.length_cons] at hlt
    obtain ⟨h1, h2, h3, h4⟩ :=
      call_probe_success_stay b c hst heq (by omega) hk (hs c (by simp))
    obtain ⟨i1, i2, i3, i4⟩ := ih (b.call c).2 h1 (by omega) (by omega) (by omega)
      (fun c1 hc1 => hs c1 (by simp [hc1]))
    simp only [Breaker.calls, List.foldl_cons, List.length_cons] at i1 i2 i3 i4 ⊢
    refine ⟨i1, by omega, by omega, by omega⟩

/-- C7. A gate has just entered HalfOpen (counters zero) with
`halfOpenMaxCall = k`, `1 ≤ k` (a `uint64`), and `k` calls are made one after the
other, each operation returning `nil`.  Every one of them is admitted and `Do`
returns `nil`; the gate is HalfOpen before each of them, so after each of the
first `k - 1`; after the `k`-th the gate is Closed with all five counters zero. -/
theorem C7_budget_successes_close (b : Breaker)
    (hst : b.state = State.StateHalfOpen) (hz : b.metric.countersZero)
    (hk1 : 1 ≤ b.halfOpenMaxCall) (hk : b.halfOpenMaxCall < U64)
    (cs : List Call) (hlen : cs.length = b.halfOpenMaxCall)
    (hok : ∀ c ∈ cs, c.result = FnResult.returns none) :
    (∀ j (hj : j < cs.length),
      (b.calls (cs.take j)).state = State.StateHalfOpen ∧
      ((b.calls (cs.take j)).beforeCall (cs.get ⟨j, hj⟩).clock.before
        (cs.get ⟨j, hj⟩).clock.beforeWindow).1 = none ∧
      ((b.calls (cs.take j)).call (cs.get ⟨j, hj⟩)).1 = FnResult.returns none) ∧
    (b.calls cs).state = State.StateClosed ∧ (b.calls cs).metric.countersZero := by
  have hsucc : ∀ c ∈ cs, c.succeeds = true := by
    intro c hc
    simp [Call.succeeds, hok c hc]
  have h0 : b.metric.CountAll = 0 := hz.1
  have h0s : b.metric.ContinuousSuccess = 0 := hz.2.2.2.1
  have hpre : ∀ j, j < cs.length →
      (b.calls (cs.take j)).state = State.StateHalfOpen ∧
        (b.calls (cs.take j)).halfOpenMaxCall = b.halfOpenMaxCall ∧
        (b.calls (cs.take j)).metric.CountAll = j ∧
        (b.calls (cs.take j)).metric.ContinuousSuccess = j := by
    intro j hj
    have hl : (cs.take j).length = j := by simp; omega
    have := calls_probe_successes (cs.take j) b hst (by omega) (by omega) hk
      (fun c hc => hsucc c (List.mem_of_mem_take hc))
    rw [hl, h0] at this
    simpa using this
  constructor
  · intro j hj
    obtain ⟨p1, p2, p3, _⟩ := hpre j hj
    have hadm : (b.calls (cs.take j)).beforeCall (cs.get ⟨j, hj⟩).clock.before
        (cs.get ⟨j, hj⟩).clock.beforeWindow = (none, b.calls (cs.take j)) := by
      have : ¬ (b.calls (cs.take j)).halfOpenMaxCall ≤ (b.calls (cs.take j)).metric.CountAll := by
        omega
      simp [Breaker.beforeCall, p1, this]
    refine ⟨p1, by rw [hadm], ?_⟩
    rw [call_accepted _ _ _ hadm, hok _ (List.get_mem cs j hj)]
  · obtain ⟨n, hn⟩ : ∃ n, cs.length = n + 1 := ⟨cs.length - 1, by omega⟩
    have hlt : n < cs.length := by omega
    obtain ⟨p1, p2, p3, p4⟩ := hpre n hlt
    have hsplit : cs = cs.take n ++ [cs.get ⟨n, hlt⟩] := by
      have h1 : cs.take (n + 1) = cs := List.take_of_length_le (by omega)
      rw [List.take_succ, List.getElem?_eq_getElem hlt] at h1
      exact h1.symm
    have hgen : ∀ (l : List Call) (x : Call), b.calls (l ++ [x]) = ((b.calls l).call x).2 := by
      intro l x
      simp [Breaker.calls, List.foldl_append]
    have hcalls : b.calls cs = ((b.calls (cs.take n)).call (cs.get ⟨n, hlt⟩)).2 :=
      (congrArg b.calls hsplit).trans (hgen _ _)
    rw [hcalls]
    exact call_probe_success_close _ _ p1 (by omega) (by omega) (by omega) (by omega)
      (hsucc _ (List.get_mem cs n hlt))

theorem C7_witness :
    (halfOpenGateBudgetTwo.calls [okCall]).state = State.StateHalfOpen ∧
      (halfOpenGateBudgetTwo.calls [okCall, okCall]).state = State.StateClosed ∧
      (halfOpenGateBudgetTwo.calls [okCall, okCall]).metric.countersZero := by
  have h := C7_budget_successes_close halfOpenGateBudgetTwo rfl (by decide) (by decide)
    (by decide) [okCall, okCall] rfl (by
      intro c hc
      simp at hc
      rw [hc]
      rfl)
  exact ⟨(h.1 1 (by decide)).1, h.2.1, h.2.2⟩

/-- C5 (counterexample). `halfOpenMaxCall = 1`, overlapping calls: the first
attempt after the cooldown is admitted and moves the gate from Open to HalfOpen;
before its outcome is recorded two more attempts are made, and both are
admitted, the gate staying HalfOpen: two calls admitted inside the episode (three
with the one that opened it) against a budget of one. -/
theorem C5_overlapping_probes_exceed_budget :
    openGateBudgetOne.state = State.StateOpen ∧
      openGateBudgetOne.accepts attemptAt2s = true ∧
      (openGateBudgetOne.step attemptAt2s).state = State.StateHalfOpen ∧
      (openGateBudgetOne.step attemptAt2s).halfOpenMaxCall = 1 ∧
      (openGateBudgetOne.step attemptAt2s).staysHalfOpen [attemptAt2s, attemptAt2s] = true ∧
      (openGateBudgetOne.step attemptAt2s).acceptedCount [attemptAt2s, attemptAt2s] = 2 ∧
      ¬ ((openGateBudgetOne.step attemptAt2s).acceptedCount [attemptAt2s, attemptAt2s] ≤
          (openGateBudgetOne.step attemptAt2s).halfOpenMaxCall) := by
  decide

theorem probesAccepted_not_halfOpen (b : Breaker) (cs : List Call)
    (h : b.state ≠ State.StateHalfOpen) : b.probesAccepted cs = 0 := by
  cases cs <;> simp [Breaker.probesAccepted, h]

/-- In sequential use the probes admitted from a HalfOpen gate fit in what is
left of the budget. -/
theorem probesAccepted_bound (cs : List Call) :
    ∀ b : Breaker, b.state = State.StateHalfOpen →
      b.metric.CountAll = b.metric.ContinuousSuccess → b.halfOpenMaxCall < U64 →
      b.metric.CountAll + b.probesAccepted cs ≤ max b.halfOpenMaxCall b.metric.CountAll := by
  induction cs with
  | nil => intro b _ _ _; simp [Breaker.probesAccepted]
  | cons c cs ih =>
    intro b hst heq hk
    simp only [Breaker.probesAccepted, hst, if_true]
    by_cases hfull : b.halfOpenMaxCall ≤ b.metric.CountAll
    · have hrej : (b.beforeCall c.clock.before c.clock.beforeWindow).1 =
          some Error.ErrStateHalfOpen := by
        simp [Breaker.beforeCall, hst, hfull]
      have hcall := call_rejected b c _ hrej
      rw [hrej, hcall]
      have := ih b hst heq hk
      simpa using this
    · have hadm : (b.beforeCall c.clock.before c.clock.beforeWindow).1 = none := by
        simp [Breaker.beforeCall, hst, hfull]
      rw [hadm]
      simp only [Option.isNone_none, if_true]
      cases hs : c.succeeds with
      | false =>
        have := call_probe_failure b c hst (by omega) hs
        rw [probesAccepted_not_halfOpen _ cs (by simp [this])]
        omega
      | true =>
        by_cases hlast : b.halfOpenMaxCall ≤ b.metric.CountAll + 1
        · have := (call_probe_success_close b c hst heq (by omega) hlast hk hs).1
          rw [probesAccepted_not_halfOpen _ cs (by simp [this])]
          omega
        · obtain ⟨h1, h2, h3, h4⟩ := call_probe_success_stay b c hst heq (by omega) hk hs
          have := ih (b.call c).2 h1 (by omega) (by omega)
          rw [h2, h3] at this
          omega

theorem beforeCall_open_late_gate (b : Breaker) (now clk : Time)
    (hst : b.state = State.StateOpen) (h : b.openTime + b.coolDownTime < now) :
    (b.beforeCall now clk).2.halfOpenMaxCall = b.halfOpenMaxCall := by
  simp [Breaker.beforeCall, hst, h, Breaker.changeState, Breaker.newWindow]

/-- The gate after the first recorded outcome of a HalfOpen episode: it has left
HalfOpen, or it is HalfOpen having counted one success. -/
theorem afterCall_first_probe (b1 : Breaker) (ok : Bool) (now clk : Time)
    (hst : b1.state = State.StateHalfOpen) (hz : b1.metric.countersZero) :
    (b1.afterCall ok now clk).state ≠ State.StateHalfOpen ∨
      ((b1.afterCall ok now clk).state = State.StateHalfOpen ∧
        (b1.afterCall ok now clk).halfOpenMaxCall = b1.halfOpenMaxCall ∧
        (b1.afterCall ok now clk).metric.CountAll = 1 ∧
        (b1.afterCall ok now clk).metric.ContinuousSuccess = 1) := by
  obtain ⟨z1, _, _, z4, _⟩ := hz
  cases ok with
  | false =>
    left
    simp [Breaker.afterCall, Breaker.onFail, hst, Breaker.changeState, Breaker.newWindow]
  | true =>
    by_cases hk : b1.halfOpenMaxCall ≤ 1
    · left
      simp [Breaker.afterCall, Breaker.onSuccess, hst, Metric.onSuccess, z4, hk,
        Breaker.changeState, Breaker.newWindow]
      split_ifs <;> simp
    · right
      simp [Breaker.afterCall, Breaker.onSuccess, hst, Metric.onSuccess, z4, z1, hk]

/-- C5 (amended). In sequential use (every call of `Do` is finished before the
next one starts) with `halfOpenMaxCall = k` (a `uint64`), from an Open gate: the
number of calls admitted in one HalfOpen episode, the call whose admission moves
the gate to HalfOpen included, is at most `max k 1`, so at most `k` when
`1 ≤ k`.  And for every HalfOpen gate, `beforeCall` rejects with
`ErrStateHalfOpen` exactly when `halfOpenMaxCall ≤ CountAll`, the number of
outcomes recorded so far, and leaves the gate as it is either way: calls that
are admitted but not yet recorded do not count against the budget. -/
theorem C5_sequential_probe_budget (b : Breaker) (hst : b.state = State.StateOpen)
    (hk : b.halfOpenMaxCall < U64) (cs : List Call) :
    b.episodeAccepted cs ≤ max b.halfOpenMaxCall 1 ∧
    (1 ≤ b.halfOpenMaxCall → b.episodeAccepted cs ≤ b.halfOpenMaxCall) ∧
    (∀ (g : Breaker) (now clk : Time), g.state = State.StateHalfOpen →
      g.beforeCall now clk =
        (if g.halfOpenMaxCall ≤ g.metric.CountAll then some Error.ErrStateHalfOpen else none,
          g)) := by
  have main : b.episodeAccepted cs ≤ max b.halfOpenMaxCall 1 := by
    cases cs with
    | nil => simp [Breaker.episodeAccepted]
    | cons c cs =>
      simp only [Breaker.episodeAccepted]
      by_cases hcool : b.openTime + b.coolDownTime < c.clock.before
      · obtain ⟨a1, a2, a3⟩ :=
          beforeCall_open_late b c.clock.before c.clock.beforeWindow hst hcool
        have a4 := beforeCall_open_late_gate b c.clock.before c.clock.beforeWindow hst hcool
        have hadm : b.beforeCall c.clock.before c.clock.beforeWindow =
            (none, (b.beforeCall c.clock.before c.clock.beforeWindow).2) := by
          rw [← a1]
        rw [a1]
        simp only [Option.isNone_none, if_true]
        rw [call_accepted b _ c hadm]
        rcases afterCall_first_probe _ c.succeeds c.clock.after c.clock.afterWindow a2 a3
          with hout | ⟨h1, h2, h3, h4⟩
        · rw [probesAccepted_not_halfOpen _ cs hout]
          omega
        · have := probesAccepted_bound cs _ h1 (by rw [h3, h4]) (by rw [h2, a4]; exact hk)
          rw [h2, h3, a4] at this
          exact this
      · have hrej := beforeCall_open_early b c.clock.before c.clock.beforeWindow hst
          (not_lt.mp hcool)
        rw [hrej]
        simp
  refine ⟨main, ?_, ?_⟩
  · intro h1
    have : max b.halfOpenMaxCall 1 = b.halfOpenMaxCall := max_eq_left h1
    omega
  · intro g now clk hg
    by_cases hfull : g.halfOpenMaxCall ≤ g.metric.CountAll <;>
      simp [Breaker.beforeCall, hg, hfull]

theorem C5_witness : openGateBudgetOne.episodeAccepted [okCall, okCall, okCall] ≤ 1 :=
  (C5_sequential_probe_budget openGateBudgetOne rfl (by decide)
    [okCall, okCall, okCall]).2.1 (by decide)

/-! ## The failure-rate scenario -/

/-- The request total of a window counts every recorded outcome. -/
theorem recordAll_CountAll (oks : List Bool) :
    ∀ m : Metric, m.CountAll < U64 →
      (m.recordAll oks).CountAll = (m.CountAll + oks.length) % U64 := by
  induction oks with
  | nil =>
    intro m hm
    simp [Metric.recordAll, Nat.mod_eq_of_lt hm]
  | cons ok oks ih =>
    intro m hm
    have hstep : (m.record ok).CountAll = (m.CountAll + 1) % U64 := by
      cases ok <;> simp [Metric.record, Metric.onSuccess, Metric.onFail]
    have hlt : (m.record ok).CountAll < U64 := by
      rw [hstep]
      exact Nat.mod_lt _ (by decide)
    simp only [Metric.recordAll, List.foldl_cons] at ih ⊢
    rw [ih _ hlt, hstep]
    simp only [U64, List.length_cons]
    omega

/-- Below its minimum number of calls the failure-rate policy is false. -/
theorem FailRateStrategyFn_below (r : ℚ) (minCall : Nat) (m : Metric)
    (h : m.CountAll < minCall) : FailRateStrategyFn r minCall m = false := by
  have : ¬ minCall ≤ m.CountAll := by omega
  simp [FailRateStrategyFn, this]

/-- With minCall 4, a Closed gate that starts a window stays Closed over its
first three outcomes, whatever they are. -/
theorem rate_first_three (b : Breaker) (r : ℚ) (hst : b.state = State.StateClosed)
    (hz : b.metric.countersZero) (hfn : b.strategyFn = FailRateStrategyFn r 4)
    (os : List Outcome) (hlen : os.length ≤ 3) :
    b.afterCalls os = { b with metric := b.metric.recordAll (oksOf os) } := by
  apply afterCalls_closed_quiet os b hst
  intro j _ hj2
  rw [hfn]
  apply FailRateStrategyFn_below
  rw [recordAll_CountAll _ _ (by rw [hz.1]; decide), hz.1]
  have hl : ((oksOf os).take j).length = j := by
    simp [oksOf]
    omega
  rw [hl]
  simp only [U64]
  omega

/-- The fourth outcome of the window, after three that left the gate Closed. -/
theorem rate_fourth (b : Breaker) (r : ℚ) (hst : b.state = State.StateClosed)
    (hz : b.metric.countersZero) (hfn : b.strategyFn = FailRateStrategyFn r 4)
    (o1 o2 o3 o4 : Outcome) :
    b.afterCalls [o1, o2, o3, o4] =
      ({ b with metric := b.metric.recordAll [o1.ok, o2.ok, o3.ok] } : Breaker).afterCall
        o4.ok o4.now o4.clk := by
  have h3 := rate_first_three b r hst hz hfn [o1, o2, o3] (by simp)
  simp only [Breaker.afterCalls, List.foldl_cons, List.foldl_nil, oksOf, List.map_cons,
    List.map_nil] at h3 ⊢
  rw [h3]


/-- A list of outcomes whose flags are four given flags. -/
theorem oksOf_four (os : List Outcome) (a b c d : Bool) (h : oksOf os = [a, b, c, d]) :
    ∃ o1 o2 o3 o4 : Outcome, os = [o1, o2, o3, o4] ∧ o1.ok = a ∧ o2.ok = b ∧ o3.ok = c ∧
      o4.ok = d := by
  match os, h with
  | [o1, o2, o3, o4], h =>
    simp [oksOf] at h
    exact ⟨o1, o2, o3, o4, rfl, h.1, h.2.1, h.2.2.1, h.2.2.2⟩

/-- Rate 0.5, minCall 4: a fourth outcome that fails trips the gate when the
window then counts at least two failures. -/
theorem rate_fourth_fails (b : Breaker) (hst : b.state = State.StateClosed)
    (hfn : b.strategyFn = FailRateStrategyFn (1 / 2) 4) (m : Metric) (now clk : Time)
    (h3 : m.CountAll = 3) (hf : 1 ≤ m.CountFail) (hf3 : m.CountFail ≤ 3) :
    (({ b with metric := m } : Breaker).afterCall false now clk).state = State.StateOpen := by
  refine afterCall_closed_fail_trip _ now clk hst ?_
  have h4 : (m.CountAll + 1) % U64 = 4 := by rw [h3]; decide
  have hfm : (m.CountFail + 1) % U64 = m.CountFail + 1 :=
    Nat.mod_eq_of_lt (by simp only [U64]; omega)
  simp only [hfn, FailRateStrategyFn, Metric.onFail, h4, hfm]
  have : (1 / 2 : ℚ) ≤ ((m.CountFail + 1 : ℕ) : ℚ) / ((4 : ℕ) : ℚ) := by
    have : (2 : ℚ) ≤ ((m.CountFail + 1 : ℕ) : ℚ) := by exact_mod_cast (by omega : 2 ≤ m.CountFail + 1)
    rw [div_le_div_iff₀ (by norm_num) (by norm_num)]
    push_cast at this ⊢
    linarith
  simp only [Bool.and_eq_true, decide_eq_true_eq]
  exact ⟨le_refl _, this⟩

/-- C11 (amended). Failure rate 0.5 with minCall 4, a Closed gate at the start of a
window, three failures and one success recorded in any order: the gate is
still Closed after each of the first three outcomes; it is Open after the
fourth when the success is the first or the second outcome; it is still Closed
after the fourth when the success is the last outcome. -/
theorem C11_rate_scenario (b : Breaker) (hst : b.state = State.StateClosed)
    (hz : b.metric.countersZero) (hfn : b.strategyFn = FailRateStrategyFn (1 / 2) 4)
    (os : List Outcome) (hperm : (oksOf os).Perm [false, false, false, true]) :
    (∀ k, k ≤ 3 → (b.afterCalls (os.take k)).state = State.StateClosed) ∧
    ((oksOf os = [true, false, false, false] ∨ oksOf os = [false, true, false, false]) →
      (b.afterCalls os).state = State.StateOpen) ∧
    (oksOf os = [false, false, false, true] →
      (b.afterCalls os).state = State.StateClosed) := by
  obtain ⟨z1, z2, z3, z4, z5⟩ := hz
  refine ⟨?_, ?_, ?_⟩
  · intro k hk
    rw [rate_first_three b _ hst ⟨z1, z2, z3, z4, z5⟩ hfn (os.take k) (by simp; omega)]
    exact hst
  · rintro (h | h)
    · obtain ⟨o1, o2, o3, o4, rfl, e1, e2, e3, e4⟩ := oksOf_four os _ _ _ _ h
      rw [rate_fourth b _ hst ⟨z1, z2, z3, z4, z5⟩ hfn, e1, e2, e3, e4]
      apply rate_fourth_fails b hst hfn <;>
        simp [Metric.recordAll, Metric.record, Metric.onSuccess, Metric.onFail, z1, z3] <;>
        decide
    · obtain ⟨o1, o2, o3, o4, rfl, e1, e2, e3, e4⟩ := oksOf_four os _ _ _ _ h
      rw [rate_fourth b _ hst ⟨z1, z2, z3, z4, z5⟩ hfn, e1, e2, e3, e4]
      apply rate_fourth_fails b hst hfn <;>
        simp [Metric.recordAll, Metric.record, Metric.onSuccess, Metric.onFail, z1, z3]
  · intro h
    obtain ⟨o1, o2, o3, o4, rfl, e1, e2, e3, e4⟩ := oksOf_four os _ _ _ _ h
    rw [rate_fourth b _ hst ⟨z1, z2, z3, z4, z5⟩ hfn, e4]
    have hok := afterCall_closed_ok
      ({ b with metric := b.metric.recordAll [o1.ok, o2.ok, o3.ok] } : Breaker) o4.now o4.clk hst
    rw [hok]
    exact hst

theorem gateWith_rateHalfOfFour :
    gateWith rateHalfOfFour =
      { exampleGate with strategyFn := FailRateStrategyFn (1 / 2) 4 } := by
  norm_num [gateWith, WithStrategyOption, strategyOf, rateHalfOfFour, exampleSelectors]

/-- C11 (counterexample). Failure rate 0.5 with minCall 4, one Closed window, outcomes
fail, fail, fail, success: after the fourth outcome the window holds four
outcomes, three of them failures by the order given, yet the gate is still
Closed, not Open: `afterCall(true)` never looks at the policy. -/
theorem C11_success_last_stays_closed :
    (gateWith rateHalfOfFour).strategyFn = FailRateStrategyFn (1 / 2) 4 ∧
      failsUpTo (oksOf [failAt5, failAt5, failAt5, okAt5]) 4 = 3 ∧
      ((gateWith rateHalfOfFour).afterCalls [failAt5, failAt5, failAt5, okAt5]).state =
        State.StateClosed ∧
      ((gateWith rateHalfOfFour).afterCalls [failAt5, failAt5, failAt5, okAt5]).state ≠
        State.StateOpen := by
  have hg := gateWith_rateHalfOfFour
  have hfn : (gateWith rateHalfOfFour).strategyFn = FailRateStrategyFn (1 / 2) 4 := by
    rw [hg]
  have hst : (gateWith rateHalfOfFour).state = State.StateClosed := by rw [hg]; rfl
  have hz : (gateWith rateHalfOfFour).metric.countersZero := by rw [hg]; decide
  have h4 := rate_fourth (gateWith rateHalfOfFour) _ hst hz hfn failAt5 failAt5 failAt5 okAt5
  have hok := afterCall_closed_ok
    ({ gateWith rateHalfOfFour with
        metric := (gateWith rateHalfOfFour).metric.recordAll
          [failAt5.ok, failAt5.ok, failAt5.ok] } : Breaker) okAt5.now okAt5.clk hst
  have hfinal : ((gateWith rateHalfOfFour).afterCalls
      [failAt5, failAt5, failAt5, okAt5]).state = State.StateClosed := by
    rw [h4]
    have : okAt5.ok = true := rfl
    rw [this, hok]
    exact hst
  refine ⟨hfn, by decide, hfinal, ?_⟩
  rw [hfinal]
  decide

theorem C11_witness :
    ((gateWith rateHalfOfFour).afterCalls [okAt5, failAt5, failAt5]).state =
        State.StateClosed ∧
      ((gateWith rateHalfOfFour).afterCalls [okAt5, failAt5, failAt5, failAt5]).state =
        State.StateOpen := by
  have hg := gateWith_rateHalfOfFour
  have h := C11_rate_scenario (gateWith rateHalfOfFour) (by rw [hg]; rfl)
    (by rw [hg]; decide) (by rw [hg]) [okAt5, failAt5, failAt5, failAt5] (by decide)
  exact ⟨h.1 3 (by decide), h.2.1 (Or.inl rfl)⟩

/-! ## The counters of a window -/

/-- C12 (failing input). A gate is constructed at instant 1 with no options; one
call that fails and then one call that succeeds are made in its first window.
After the second call the window counts two requests, one success and no
failure: `CountSuccess + CountFail` is 1 and `CountAll` is 2, because
`Metric.onSuccess` has set `CountFail` to zero. -/
theorem C12_success_erases_failures :
    ((NewBreaker defaultBreaker [] 1 1).calls [failingCallAt 5, okCallAt 6]).metric.CountAll = 2 ∧
      ((NewBreaker defaultBreaker [] 1 1).calls
        [failingCallAt 5, okCallAt 6]).metric.CountSuccess = 1 ∧
      ((NewBreaker defaultBreaker [] 1 1).calls
        [failingCallAt 5, okCallAt 6]).metric.CountFail = 0 ∧
      ((NewBreaker defaultBreaker [] 1 1).calls [failingCallAt 5, okCallAt 6]).metric.WindowBatch
        = 1 ∧
      ((NewBreaker defaultBreaker [] 1 1).calls [failingCallAt 5]).metric.CountFail = 1 := by
  decide

/-- C16 (failing input). On metrics that count one failure, in a streak of one,
`onSuccess` sets `CountFail` to zero instead of leaving it at 1, and leaves
`ContinuousFail` at 1 instead of setting it to zero; `onFail` does mirror it
right on the same metrics. -/
theorem C16_onSuccess_resets_wrong_counter :
    oneFailure.CountFail = 1 ∧ oneFailure.ContinuousFail = 1 ∧
      oneFailure.onSuccess.CountFail = 0 ∧ oneFailure.onSuccess.ContinuousFail = 1 ∧
      oneFailure.onSuccess.onFail.CountSuccess = 1 ∧
      oneFailure.onSuccess.onFail.ContinuousSuccess = 0 := by
  decide

/-! ## Gates made by `NewBreaker` -/

/-- C13 (failing input). `NewBreaker(WithWindowInterval(2s), WithCoolDownTime(5s),
WithHalfOpenMaxCall(3))` and then `NewBreaker()`: the second call passes no
option, yet the gate it returns has `windowInterval = 2s`, `coolDownTime = 5s`
and `halfOpenMaxCall = 3` instead of the defaults, because both calls configure
and return the one package variable `defaultBreaker`. -/
theorem C13_second_gate_inherits_options :
    (NewBreaker
        (NewBreaker defaultBreaker
          [WithWindowInterval (2 * Second), WithCoolDownTime (5 * Second),
            WithHalfOpenMaxCall 3] 1 1) [] 2 2).windowInterval = 2 * Second ∧
      (NewBreaker
        (NewBreaker defaultBreaker
          [WithWindowInterval (2 * Second), WithCoolDownTime (5 * Second),
            WithHalfOpenMaxCall 3] 1 1) [] 2 2).coolDownTime = 5 * Second ∧
      (NewBreaker
        (NewBreaker defaultBreaker
          [WithWindowInterval (2 * Second), WithCoolDownTime (5 * Second),
            WithHalfOpenMaxCall 3] 1 1) [] 2 2).halfOpenMaxCall = 3 ∧
      DefaultWindowInterval = Second ∧ DefaultCoolDownTime = Second ∧
      DefaultHalfOpenMaxCall = 5 ∧
      (NewBreaker defaultBreaker [] 1 1).halfOpenMaxCall = 5 := by
  decide

/-! ## The parameters `WithStrategyOption` installs -/

/-- What `beforeCall` does to a Closed gate, for any window interval. -/
theorem beforeCall_closed (b : Breaker) (now clk : Time)
    (hst : b.state = State.StateClosed) :
    (b.beforeCall now clk).1 = none ∧
      (b.beforeCall now clk).2 =
        (if b.metric.WindowStartTime ≠ 0 ∧ b.metric.WindowStartTime < now then
          b.newWindow now clk else b) := by
  unfold Breaker.beforeCall
  simp only [hst]
  split_ifs <;> simp

/-- What `newWindow` does to a Closed gate. -/
theorem newWindow_closed (b : Breaker) (t clk : Time) (hst : b.state = State.StateClosed) :
    (b.newWindow t clk).state = State.StateClosed ∧
      (b.newWindow t clk).metric.countersZero ∧
      (b.newWindow t clk).metric.WindowBatch = (b.metric.WindowBatch + 1) % U64 ∧
      (b.newWindow t clk).metric.WindowStartTime =
        (if b.windowInterval = 0 then clk else t + b.windowInterval) ∧
      (b.newWindow t clk).windowInterval = b.windowInterval ∧
      (b.newWindow t clk).strategyFn = b.strategyFn ∧
      (b.newWindow t clk).halfOpenMaxCall = b.halfOpenMaxCall := by
  unfold Breaker.newWindow
  simp only [hst]
  split_ifs <;>
    simp [Metric.countersZero, Metric.OnReset, Metric.NewWindowBatch, hst, *]

/-- C15. For a Closed gate with `windowInterval > 0` and any instant `now`,
`beforeCall` returns no error and leaves the state Closed.  If `WindowStartTime`
is non-zero and strictly before `now`, then afterwards all five counters are
zero, the batch is one higher (`WindowBatch++`, in `uint64` arithmetic) and
`WindowStartTime = now + windowInterval`; otherwise the gate, metrics included,
is unchanged. -/
theorem C15_closed_admission (b : Breaker) (now clk : Time)
    (hst : b.state = State.StateClosed) (hw : 0 < b.windowInterval) :
    (b.beforeCall now clk).1 = none ∧
    (b.beforeCall now clk).2.state = State.StateClosed ∧
    (b.metric.WindowStartTime ≠ 0 ∧ b.metric.WindowStartTime < now →
      (b.beforeCall now clk).2.metric.countersZero ∧
      (b.beforeCall now clk).2.metric.WindowBatch = (b.metric.WindowBatch + 1) % U64 ∧
      (b.beforeCall now clk).2.metric.WindowStartTime = now + b.windowInterval) ∧
    (¬ (b.metric.WindowStartTime ≠ 0 ∧ b.metric.WindowStartTime < now) →
      (b.beforeCall now clk).2 = b) := by
  obtain ⟨h1, h2⟩ := beforeCall_closed b now clk hst
  obtain ⟨n1, n2, n3, n4, _⟩ := newWindow_closed b now clk hst
  have hw0 : b.windowInterval ≠ 0 := ne_of_gt hw
  refine ⟨h1, ?_, ?_, ?_⟩
  · rw [h2]
    split_ifs
    · exact n1
    · exact hst
  · intro h
    rw [h2, if_pos h]
    refine ⟨n2, n3, ?_⟩
    rw [n4, if_neg hw0]
  · intro h
    rw [h2, if_neg h]

theorem C15_witness :
    (exampleGate.beforeCall 5 5).2 = exampleGate ∧
      ((exampleGate.afterCall false 5 5).beforeCall 7 7).2 = exampleGate.afterCall false 5 5 ∧
      ((NewBreaker defaultBreaker [] 1 1).beforeCall 2000000000 2000000000).2.metric.WindowStartTime
        = 3000000000 := by
  refine ⟨(C15_closed_admission exampleGate 5 5 rfl (by decide)).2.2.2 (by decide),
    (C15_closed_admission (exampleGate.afterCall false 5 5) 7 7 rfl (by decide)).2.2.2
      (by decide), ?_⟩
  exact ((C15_closed_admission (NewBreaker defaultBreaker [] 1 1) 2000000000 2000000000
    rfl (by decide)).2.2.1 (by decide)).2.2

/-- C17 (counterexample). A Closed gate with `windowInterval = 0`, its window stamped
at instant 100, one success counted: the admission at instant 200 rolls the
window (counters back to zero, batch from 1 to 2, window stamped with the clock
reading 201), and the admission at instant 300 rolls it again. -/
theorem C17_zero_interval_rolls_window :
    zeroIntervalGate.state = State.StateClosed ∧ zeroIntervalGate.windowInterval = 0 ∧
      zeroIntervalGate.metric.CountAll = 1 ∧ zeroIntervalGate.metric.WindowBatch = 1 ∧
      (zeroIntervalGate.beforeCall 200 201).2.metric.CountAll = 0 ∧
      (zeroIntervalGate.beforeCall 200 201).2.metric.WindowBatch = 2 ∧
      (zeroIntervalGate.beforeCall 200 201).2.metric.WindowStartTime = 201 ∧
      ((zeroIntervalGate.beforeCall 200 201).2.beforeCall 300 301).2.metric.WindowBatch = 3 := by
  decide

/-- C17 (amended). For a Closed gate with `windowInterval = 0`, `beforeCall` admits
the call and leaves the state Closed.  The admission rolls the window exactly
when `WindowStartTime` is non-zero and strictly before `now`: the counters are
then zero, the batch is one higher (`WindowBatch++`) and `WindowStartTime` is
the clock reading `clk` taken in `newWindow`, so an admission at any instant
after a non-zero `clk` rolls the window again.  Otherwise `beforeCall` leaves
the gate, counters and batch included, as it is. -/
theorem C17_zero_interval_admission (b : Breaker) (now clk : Time)
    (hst : b.state = State.StateClosed) (hw : b.windowInterval = 0) :
    (b.beforeCall now clk).1 = none ∧
    (b.beforeCall now clk).2.state = State.StateClosed ∧
    (b.metric.WindowStartTime ≠ 0 ∧ b.metric.WindowStartTime < now →
      (b.beforeCall now clk).2.metric.countersZero ∧
      (b.beforeCall now clk).2.metric.WindowBatch = (b.metric.WindowBatch + 1) % U64 ∧
      (b.beforeCall now clk).2.metric.WindowStartTime = clk ∧
      ∀ now1 clk1 : Time, clk ≠ 0 → clk < now1 →
        ((b.beforeCall now clk).2.beforeCall now1 clk1).2.metric.WindowBatch =
          ((b.metric.WindowBatch + 1) % U64 + 1) % U64 ∧
        ((b.beforeCall now clk).2.beforeCall now1 clk1).2.metric.countersZero) ∧
    (¬ (b.metric.WindowStartTime ≠ 0 ∧ b.metric.WindowStartTime < now) →
      (b.beforeCall now clk).2 = b) := by
  obtain ⟨h1, h2⟩ := beforeCall_closed b now clk hst
  obtain ⟨n1, n2, n3, n4, n5, _⟩ := newWindow_closed b now clk hst
  refine ⟨h1, ?_, ?_, ?_⟩
  · rw [h2]
    split_ifs
    · exact n1
    · exact hst
  · intro h
    rw [h2, if_pos h]
    rw [if_pos hw] at n4
    refine ⟨n2, n3, n4, ?_⟩
    intro now1 clk1 hc0 hc1
    obtain ⟨_, g2⟩ := beforeCall_closed (b.newWindow now clk) now1 clk1 n1
    obtain ⟨_, m2, m3, _⟩ := newWindow_closed (b.newWindow now clk) now1 clk1 n1
    have hroll : (b.newWindow now clk).metric.WindowStartTime ≠ 0 ∧
        (b.newWindow now clk).metric.WindowStartTime < now1 := by
      rw [n4]
      exact ⟨hc0, hc1⟩
    rw [g2, if_pos hroll, m3, n3]
    exact ⟨rfl, m2⟩
  · intro h
    rw [h2, if_neg h]

theorem C17_witness :
    (zeroIntervalGate.beforeCall 200 201).2.metric.countersZero ∧
      (zeroIntervalGate.beforeCall 50 51).2 = zeroIntervalGate :=
  ⟨((C17_zero_interval_admission zeroIntervalGate 200 201 rfl rfl).2.2.1 (by decide)).1,
    (C17_zero_interval_admission zeroIntervalGate 50 51 rfl rfl).2.2.2 (by decide)⟩

/-! ## HalfOpen in sequential use -/

theorem afterCall_halfOpenMaxCall (b : Breaker) (ok : Bool) (now clk : Time) :
    (b.afterCall ok now clk).halfOpenMaxCall = b.halfOpenMaxCall := by
  cases ok <;> cases hs : b.state <;>
    simp [Breaker.afterCall, Breaker.onSuccess, Breaker.onFail, hs, Breaker.changeState,
      Breaker.newWindow] <;>
    (try split_ifs) <;> simp_all

theorem beforeCall_halfOpenMaxCall (b : Breaker) (now clk : Time) :
    (b.beforeCall now clk).2.halfOpenMaxCall = b.halfOpenMaxCall := by
  cases hs : b.state <;>
    simp [Breaker.beforeCall, hs, Breaker.changeState, Breaker.newWindow] <;>
    (try split_ifs) <;> simp_all

/-- No `afterCall` takes a gate into HalfOpen. -/
theorem afterCall_not_halfOpen (b : Breaker) (ok : Bool) (now clk : Time)
    (h : b.state ≠ State.StateHalfOpen) :
    (b.afterCall ok now clk).state ≠ State.StateHalfOpen := by
  cases ok <;> cases hs : b.state <;>
    simp_all [Breaker.afterCall, Breaker.onSuccess, Breaker.onFail, Breaker.changeState,
      Breaker.newWindow]
  split_ifs <;> simp_all

/-- Recording the outcome of a probe: the gate leaves HalfOpen or is HalfOpen
below its budget. -/
theorem afterCall_probing (b : Breaker) (ok : Bool) (now clk : Time)
    (hst : b.state = State.StateHalfOpen)
    (heq : b.metric.CountAll = b.metric.ContinuousSuccess)
    (hlt : b.metric.CountAll < b.halfOpenMaxCall ∨ b.metric.CountAll = 0)
    (hk : b.halfOpenMaxCall < U64) :
    (b.afterCall ok now clk).probing := by
  have hmod : (b.metric.ContinuousSuccess + 1) % U64 = b.metric.ContinuousSuccess + 1 :=
    Nat.mod_eq_of_lt (by simp only [U64] at hk ⊢; omega)
  have hmod2 : (b.metric.CountAll + 1) % U64 = b.metric.CountAll + 1 :=
    Nat.mod_eq_of_lt (by simp only [U64] at hk ⊢; omega)
  intro hh
  cases ok with
  | false =>
    exfalso
    revert hh
    simp [Breaker.afterCall, Breaker.onFail, hst, Breaker.changeState, Breaker.newWindow]
  | true =>
    by_cases hfull : b.halfOpenMaxCall ≤ b.metric.ContinuousSuccess + 1
    · exfalso
      revert hh
      simp [Breaker.afterCall, Breaker.onSuccess, hst, Metric.onSuccess, hmod, hfull,
        Breaker.changeState, Breaker.newWindow]
      split_ifs <;> simp
    · simp [Breaker.afterCall, Breaker.onSuccess, hst, Metric.onSuccess, hmod, hmod2, hfull,
        heq]
      omega

/-- One call of `Do` keeps the gate Closed, Open, or HalfOpen below its budget. -/
theorem call_probing (b : Breaker) (c : Call) (hinv : b.probing)
    (hk : b.halfOpenMaxCall < U64) :
    (b.call c).2.probing ∧ (b.call c).2.halfOpenMaxCall = b.halfOpenMaxCall := by
  cases hb : b.beforeCall c.clock.before c.clock.beforeWindow with
  | mk r b1 =>
    have hk1 : b1.halfOpenMaxCall = b.halfOpenMaxCall := by
      have := beforeCall_halfOpenMaxCall b c.clock.before c.clock.beforeWindow
      rw [hb] at this
      exact this
    cases r with
    | some e =>
      have := call_rejected b c e (by rw [hb])
      rw [this]
      exact ⟨hinv, rfl⟩
    | none =>
      rw [call_accepted b b1 c hb]
      refine ⟨?_, by rw [afterCall_halfOpenMaxCall, hk1]⟩
      cases hs : b.state with
      | StateClosed =>
        have h2 := (beforeCall_closed b c.clock.before c.clock.beforeWindow hs).2
        rw [hb] at h2
        have hb1 : b1.state = State.StateClosed := by
          simp only at h2
          rw [h2]
          split_ifs
          · exact (newWindow_closed b _ _ hs).1
          · exact hs
        intro hh
        exact absurd hh (afterCall_not_halfOpen b1 _ _ _ (by simp [hb1]))
      | StateOpen =>
        by_cases hcool : b.openTime + b.coolDownTime < c.clock.before
        · obtain ⟨_, a2, a3⟩ :=
            beforeCall_open_late b c.clock.before c.clock.beforeWindow hs hcool
          rw [hb] at a2 a3
          exact afterCall_probing b1 _ _ _ a2 (by rw [a3.1, a3.2.2.2.1]) (Or.inr a3.1)
            (by rw [hk1]; exact hk)
        · have := beforeCall_open_early b c.clock.before c.clock.beforeWindow hs
            (not_lt.mp hcool)
          rw [hb] at this
          simp at this
      | StateHalfOpen =>
        obtain ⟨i1, i2⟩ := hinv hs
        have hb1 : b1 = b := by
          have : ¬ b.halfOpenMaxCall ≤ b.metric.CountAll := by omega
          simp [Breaker.beforeCall, hs, this] at hb
          exact hb.symm
        rw [hb1]
        exact afterCall_probing b _ _ _ hs i1 (Or.inl i2) hk

/-- Any number of calls of `Do`, one after the other, keep the gate Closed, Open,
or HalfOpen below its budget. -/
theorem calls_probing (cs : List Call) :
    ∀ b : Breaker, b.probing → b.halfOpenMaxCall < U64 →
      (b.calls cs).probing ∧ (b.calls cs).halfOpenMaxCall = b.halfOpenMaxCall := by
  induction cs with
  | nil => intro b h _; exact ⟨h, rfl⟩
  | cons c cs ih =>
    intro b h hk
    obtain ⟨p1, p2⟩ := call_probing b c h hk
    obtain ⟨q1, q2⟩ := ih (b.call c).2 p1 (by rw [p2]; exact hk)
    simp only [Breaker.calls, List.foldl_cons] at q1 q2 ⊢
    exact ⟨q1, by rw [q2, p2]⟩

/-- C18. Sequential use (every call of `Do` is finished before the next one
starts), `halfOpenMaxCall` any `uint64`, from a gate that is Closed or Open (or
HalfOpen below its budget), with any outcomes and clock readings: after any
number of calls, if the gate is HalfOpen then `CountAll = ContinuousSuccess <
halfOpenMaxCall`; so the next `beforeCall` does not reject with
`ErrStateHalfOpen`, and `Do` returns `ErrStateHalfOpen` only if the operation
itself returned it. -/
theorem C18_half_open_never_rejects_sequentially (b : Breaker) (hinv : b.probing)
    (hk : b.halfOpenMaxCall < U64) (cs : List Call) (c : Call) :
    ((b.calls cs).state = State.StateHalfOpen →
      (b.calls cs).metric.CountAll = (b.calls cs).metric.ContinuousSuccess ∧
      (b.calls cs).metric.CountAll < b.halfOpenMaxCall) ∧
    ((b.calls cs).beforeCall c.clock.before c.clock.beforeWindow).1 ≠
      some Error.ErrStateHalfOpen ∧
    (c.result ≠ FnResult.returns (some Error.ErrStateHalfOpen) →
      ((b.calls cs).call c).1 ≠ FnResult.returns (some Error.ErrStateHalfOpen)) := by
  obtain ⟨p1, p2⟩ := calls_probing cs b hinv hk
  have hadm : ((b.calls cs).beforeCall c.clock.before c.clock.beforeWindow).1 ≠
      some Error.ErrStateHalfOpen := by
    intro hrej
    cases hs : (b.calls cs).state with
    | StateClosed =>
      rw [(beforeCall_closed _ _ _ hs).1] at hrej
      exact Option.noConfusion hrej
    | StateOpen =>
      by_cases hcool : (b.calls cs).openTime + (b.calls cs).coolDownTime < c.clock.before
      · rw [(beforeCall_open_late _ _ _ hs hcool).1] at hrej
        exact Option.noConfusion hrej
      · rw [beforeCall_open_early _ _ _ hs (not_lt.mp hcool)] at hrej
        simp at hrej
    | StateHalfOpen =>
      obtain ⟨_, i2⟩ := p1 hs
      have : ¬ (b.calls cs).halfOpenMaxCall ≤ (b.calls cs).metric.CountAll := by omega
      simp [Breaker.beforeCall, hs, this] at hrej
  refine ⟨?_, hadm, ?_⟩
  · intro hs
    obtain ⟨i1, i2⟩ := p1 hs
    exact ⟨i1, by omega⟩
  · intro hres
    cases hb : (b.calls cs).beforeCall c.clock.before c.clock.beforeWindow with
    | mk r b1 =>
      cases r with
      | some e =>
        rw [call_rejected _ c e (by rw [hb])]
        rw [hb] at hadm
        simp only [ne_eq, Option.some.injEq] at hadm
        simp only [ne_eq, FnResult.returns.injEq, Option.some.injEq]
        exact hadm
      | none =>
        rw [call_accepted _ b1 c hb]
        cases hr : c.result with
        | panics => simp
        | returns e =>
          rw [hr] at hres
          simpa using hres

theorem C18_witness :
    ((openGateBudgetOne.calls [okCall]).beforeCall 2000000002 2000000002).1 ≠
      some Error.ErrStateHalfOpen :=
  (C18_half_open_never_rejects_sequentially openGateBudgetOne (by intro h; cases h)
    (by decide) [okCall] ⟨FnResult.panics, ⟨2000000002, 2000000002, 0, 0⟩⟩).2.1

/-! ## Panics -/

/-- C19. An admitted call whose operation panics: `Do` returns `nil`, while the gate
has taken one `afterCall(false)`; a call admitted on the same gate whose
operation returns `nil` makes `Do` return the same value. -/
theorem C19_panic_returns_nil {σ : Type} (b b1 : Breaker)
    (fn fn1 : σ → FnResult × σ) (s s1 s2 : σ) (c : Clock)
    (hadm : b.beforeCall c.before c.beforeWindow = (none, b1))
    (hfn : fn s = (FnResult.panics, s1))
    (hfn1 : fn1 s = (FnResult.returns none, s2)) :
    (b.Do fn s c).1 = FnResult.returns none ∧
      (b.Do fn s c).2.1 = b1.afterCall false c.after c.afterWindow ∧
      (b.Do fn1 s c).1 = (b.Do fn s c).1 ∧
      (b.Do fn1 s c).2.1 = b1.afterCall true c.after c.afterWindow := by
  simp [Breaker.Do, hadm, hfn, hfn1]

theorem C19_witness :
    (exampleGate.Do countingPanic 0 clockAt5).1 = FnResult.returns none ∧
      (exampleGate.Do countingPanic 0 clockAt5).2.1.metric.CountFail = 1 ∧
      (exampleGate.Do countingOk 0 clockAt5).1 = (exampleGate.Do countingPanic 0 clockAt5).1 := by
  have h := C19_panic_returns_nil exampleGate exampleGate countingPanic countingOk 0 1 1
    clockAt5 rfl rfl rfl
  refine ⟨h.1, ?_, h.2.2.1⟩
  rw [h.2.1]
  decide

/-! ## One window per call -/

/-- Recording one outcome on a Closed gate with an empty window and an
absolute-failure threshold of at least 2: the gate stays Closed and the window
holds that one outcome. -/
theorem afterCall_single_outcome (b : Breaker) (ok : Bool) (now clk : Time) (n : Nat)
    (hst : b.state = State.StateClosed) (hz : b.metric.countersZero)
    (hfn : b.strategyFn = FailStrategyFn n) (hn : 2 ≤ n) :
    b.afterCall ok now clk = { b with metric := b.metric.record ok } ∧
      (b.metric.record ok).CountAll = 1 := by
  obtain ⟨z1, _, z3, _, _⟩ := hz
  have hall : (b.metric.record ok).CountAll = 1 := by
    cases ok <;> simp [Metric.record, Metric.onSuccess, Metric.onFail, z1]
  refine ⟨afterCall_closed_quiet b ok now clk hst ?_, hall⟩
  cases ok with
  | true => simp [hfn, FailStrategyFn, Metric.record, Metric.onSuccess]; omega
  | false => simp [hfn, FailStrategyFn, Metric.record, Metric.onFail, z3]; omega

/-- One call on a Closed gate whose window is empty or stale at the admission. -/
theorem call_own_window (b : Breaker) (c : Call) (n : Nat)
    (hst : b.state = State.StateClosed) (hw : 0 < b.windowInterval)
    (hfn : b.strategyFn = FailStrategyFn n) (hn : 2 ≤ n)
    (hws : b.metric.WindowStartTime ≠ 0)
    (hle : b.metric.WindowStartTime ≤ c.clock.before + b.windowInterval)
    (hfresh : b.metric.countersZero ∨ b.metric.WindowStartTime < c.clock.before)
    (hpos : 0 < c.clock.before) :
    (b.call c).2.state = State.StateClosed ∧
      (b.call c).2.windowInterval = b.windowInterval ∧
      (b.call c).2.strategyFn = b.strategyFn ∧
      (b.call c).2.metric.WindowStartTime ≠ 0 ∧
      (b.call c).2.metric.WindowStartTime ≤ c.clock.before + b.windowInterval ∧
      (b.call c).2.metric.CountAll = 1 := by
  obtain ⟨h1, h2⟩ := beforeCall_closed b c.clock.before c.clock.beforeWindow hst
  obtain ⟨n1, n2, _, n4, n5, n6, _⟩ :=
    newWindow_closed b c.clock.before c.clock.beforeWindow hst
  rw [if_neg (ne_of_gt hw)] at n4
  have hadm : b.beforeCall c.clock.before c.clock.beforeWindow =
      (none, (b.beforeCall c.clock.before c.clock.beforeWindow).2) := by
    rw [← h1]
  rw [call_accepted b _ c hadm, h2]
  by_cases hroll : b.metric.WindowStartTime ≠ 0 ∧ b.metric.WindowStartTime < c.clock.before
  · rw [if_pos hroll]
    obtain ⟨a1, a2⟩ := afterCall_single_outcome (b.newWindow c.clock.before c.clock.beforeWindow)
      c.succeeds c.clock.after c.clock.afterWindow n n1 n2 (by rw [n6, hfn]) hn
    rw [a1]
    refine ⟨n1, n5, n6, ?_, ?_, a2⟩
    · have : ((b.newWindow c.clock.before c.clock.beforeWindow).metric.record
          c.succeeds).WindowStartTime = c.clock.before + b.windowInterval := by
        cases c.succeeds <;> simp [Metric.record, Metric.onSuccess, Metric.onFail, n4]
      simp only [this]
      exact ne_of_gt (add_pos hpos hw)
    · have : ((b.newWindow c.clock.before c.clock.beforeWindow).metric.record
          c.succeeds).WindowStartTime = c.clock.before + b.windowInterval := by
        cases c.succeeds <;> simp [Metric.record, Metric.onSuccess, Metric.onFail, n4]
      simp only [this]
      exact le_refl _
  · rw [if_neg hroll]
    have hz : b.metric.countersZero := by
      rcases hfresh with h | h
      · exact h
      · exact absurd ⟨hws, h⟩ hroll
    obtain ⟨a1, a2⟩ := afterCall_single_outcome b c.succeeds c.clock.after c.clock.afterWindow
      n hst hz hfn hn
    rw [a1]
    have : (b.metric.record c.succeeds).WindowStartTime = b.metric.WindowStartTime := by
      cases c.succeeds <;> simp [Metric.record, Metric.onSuccess, Metric.onFail]
    refine ⟨hst, rfl, rfl, ?_, ?_, a2⟩
    · simp only [this]
      exact hws
    · simp only [this]
      exact hle

/-- Calls spaced by more than the window interval, after a first call `c0` that
left gate `g`: the gate is Closed after each of them, with one outcome in its
window. -/
theorem calls_own_windows (rest : List Call) :
    ∀ (g : Breaker) (c0 : Call) (n : Nat), g.state = State.StateClosed →
      0 < g.windowInterval → g.strategyFn = FailStrategyFn n → 2 ≤ n →
      g.metric.WindowStartTime ≠ 0 →
      g.metric.WindowStartTime ≤ c0.clock.before + g.windowInterval →
      g.metric.CountAll = 1 →
      spaced g.windowInterval c0 rest = true →
      (∀ d ∈ rest, 0 < d.clock.before) →
      ∀ k, k ≤ rest.length →
        (g.calls (rest.take k)).state = State.StateClosed ∧
          (g.calls (rest.take k)).metric.CountAll = 1 := by
  induction rest with
  | nil =>
    intro g c0 n hst _ _ _ _ _ hone _ _ k hk
    simp only [List.length_nil, Nat.le_zero] at hk
    subst hk
    exact ⟨hst, hone⟩
  | cons c rest ih =>
    intro g c0 n hst hw hfn hn hws hle hone hchain hpos k hk
    cases k with
    | zero => exact ⟨hst, hone⟩
    | succ k =>
      simp only [spaced, Bool.and_eq_true, decide_eq_true_eq] at hchain
      obtain ⟨hlater, hchain⟩ := hchain
      have hstale : g.metric.WindowStartTime < c.clock.before :=
        lt_of_le_of_lt hle hlater
      obtain ⟨s1, s2, s3, s4, s5, s6⟩ := call_own_window g c n hst hw hfn hn hws
        (le_trans (le_of_lt hstale) (le_add_of_nonneg_right (le_of_lt hw)))
        (Or.inr hstale) (hpos c (by simp))
      have := ih (g.call c).2 c n s1 (by rw [s2]; exact hw) (by rw [s3]; exact hfn) hn s4
        (by rw [s2]; exact s5) s6 (by rw [s2]; exact hchain)
        (fun d hd => hpos d (by simp [hd])) k (by simpa using hk)
      simpa [Breaker.calls] using this

/-- C20. A Closed gate at the start of a window (counters zero), with
`windowInterval = w > 0`, an absolute-failure threshold of at least 2, and a
non-zero `WindowStartTime` that is at most the instant of the first call plus
`w` (the gate was made no later than the first call).  Calls of `Do` are made
one after the other, each admitted at an instant after the zero instant, and
every call after the first more than `w` after the call before it.  Then
after every call the gate is Closed and its window holds exactly the outcome of
that call, whatever the outcomes are. -/
theorem C20_spaced_calls_never_trip (b : Breaker) (n : Nat) (c : Call) (rest : List Call)
    (hst : b.state = State.StateClosed) (hz : b.metric.countersZero)
    (hw : 0 < b.windowInterval) (hfn : b.strategyFn = FailStrategyFn n) (hn : 2 ≤ n)
    (hws : b.metric.WindowStartTime ≠ 0)
    (hle : b.metric.WindowStartTime ≤ c.clock.before + b.windowInterval)
    (hchain : spaced b.windowInterval c rest = true)
    (hpos : ∀ d ∈ c :: rest, 0 < d.clock.before) (k : Nat) (hk1 : 1 ≤ k)
    (hk : k ≤ (c :: rest).length) :
    (b.calls ((c :: rest).take k)).state = State.StateClosed ∧
      (b.calls ((c :: rest).take k)).metric.CountAll = 1 := by
  obtain ⟨k, rfl⟩ : ∃ j, k = j + 1 := ⟨k - 1, by omega⟩
  obtain ⟨s1, s2, s3, s4, s5, s6⟩ := call_own_window b c n hst hw hfn hn hws hle
    (Or.inl hz) (hpos c (by simp))
  have := calls_own_windows rest (b.call c).2 c n s1 (by rw [s2]; exact hw)
    (by rw [s3]; exact hfn) hn s4 (by rw [s2]; exact s5) s6 (by rw [s2]; exact hchain)
    (fun d hd => hpos d (by simp [hd])) k (by simpa using hk)
  simpa [Breaker.calls] using this

theorem C20_witness :
    (testGate.calls testCalls).state = State.StateClosed ∧
      (testGate.calls (testCalls.take 5)).state = State.StateClosed ∧
      (testGate.calls (testCalls.take 5)).metric.CountFail = 1 := by
  have h := C20_spaced_calls_never_trip testGate 2 (okCallAt (2 * Second)) testCalls.tail
    rfl (by decide) (by decide) rfl (by decide) (by decide) (by decide) (by decide)
    (by decide)
  exact ⟨(h 20 (by decide) (by decide)).1, (h 5 (by decide) (by decide)).1, by decide⟩

end CircuitBreaker
